import Mathlib

/-!
Verification of the llamaparse_neo4j contract-extraction pipeline.

The Python sources are shallowly embedded: text is modelled as `List Char`
(one entry per code point, matching Python's `str` indexing), dictionaries
as records, exceptions as `Option`/`Except`, and the external NLP services
(SpaCy, ContractBERT) as function-valued parameters.  Regular expressions
are embedded through a small backtracking engine (`Rx`) whose ASTs are
one-to-one transcriptions of the Python pattern strings; `re.IGNORECASE`,
`re.MULTILINE` and `re.DOTALL` are baked into each transcription.

Character case operations use the ASCII case maps, adequate for the ASCII
pattern alphabets and inputs of this code base.
-/

set_option maxRecDepth 20000

/-- Python strings are modelled as lists of characters (code points). -/
abbrev PyS := List Char

/-- Convert a Lean string literal to the `PyS` model. -/
def pys (s : String) : PyS := s.data

/-- Python whitespace for `str.split`/`str.strip` and the regex class `\s`
(ASCII fragment). -/
def pySpace (c : Char) : Bool :=
  c = ' ' || c = '\t' || c = '\n' || c = '\r' || c = '\x0b' || c = '\x0c'

/-- `str.lower` (ASCII case map). -/
def pyLower (s : PyS) : PyS := s.map Char.toLower

/-- `str.upper` (ASCII case map). -/
def pyUpper (s : PyS) : PyS := s.map Char.toUpper

/-- `str.strip()`: drop whitespace from both ends. -/
def pyStrip (s : PyS) : PyS :=
  ((s.dropWhile pySpace).reverse.dropWhile pySpace).reverse

/-- `len(s.split())`: number of maximal non-whitespace runs.  The sources
only ever take the length of a whitespace `split`, so only the count is
modelled. -/
def pyWordCountAux : PyS → Bool → Nat
  | [], _ => 0
  | c :: rest, inWord =>
      if pySpace c then pyWordCountAux rest false
      else (if inWord then 0 else 1) + pyWordCountAux rest true

def pyWordCount (s : PyS) : Nat := pyWordCountAux s false

/-- `s.find(needle)`: index of the first occurrence, `-1` when absent
(`"" ` is found at index 0, as in Python). -/
def pyFindAux (needle : PyS) : PyS → Nat → Int
  | rest, i =>
      if needle.isPrefixOf rest then (i : Int)
      else match rest with
        | [] => -1
        | _ :: tl => pyFindAux needle tl (i + 1)

def pyFind (s needle : PyS) : Int := pyFindAux needle s 0

/-- Python's `needle in s` substring test. -/
def pyIn (needle s : PyS) : Bool := pyFind s needle ≠ -1

/-- `s[i:j]` for `0 ≤ i ≤ j` (the only slice shape the sources use on
text, always with nonnegative clamped bounds). -/
def pySlice (s : PyS) (i j : Nat) : PyS := (s.take j).drop i

/-- `l[-k:]`: the last `k` elements (whole list when shorter). -/
def pyLastN {α : Type} (l : List α) (k : Nat) : List α :=
  l.drop (l.length - k)

/-- `range(a, b, step)` for `step > 0` (a `step` of 0 raises `ValueError`
in Python; call sites model that case explicitly). -/
def pyRangeStep (a b step : Nat) : List Nat :=
  if step = 0 then []
  else (List.range ((b - a + step - 1) / step)).map (fun k => a + k * step)

/-- `[s[i:i+size] for i in range(0, stop, size)]`, the chunking idiom used
throughout the sources. -/
def pyChunks (s : PyS) (stop size : Nat) : List PyS :=
  (pyRangeStep 0 stop size).map (fun i => pySlice s i (i + size))

/-- `"\n".join(xs)`. -/
def pyJoinNl (xs : List PyS) : PyS := List.intercalate (pys "\n") xs

/-- `s.replace(old, new)` for a non-empty `old`: non-overlapping
left-to-right replacement (the fuel dominates the input length, so it
never runs out before the input does). -/
def pyReplaceAux (old new : PyS) : Nat → PyS → PyS
  | _, [] => []
  | 0, s => s
  | fuel + 1, c :: rest =>
      if old.isPrefixOf (c :: rest) then
        new ++ pyReplaceAux old new fuel ((c :: rest).drop old.length)
      else c :: pyReplaceAux old new fuel rest

def pyReplace (s old new : PyS) : PyS :=
  if old.isEmpty then s else pyReplaceAux old new s.length s

/-- `re.sub(r'\s+', ' ', s)`: collapse whitespace runs to single spaces
(the flag records whether the previous character was whitespace). -/
def pyCollapseWsAux : PyS → Bool → PyS
  | [], _ => []
  | c :: rest, prevWs =>
      if pySpace c then
        if prevWs then pyCollapseWsAux rest true
        else ' ' :: pyCollapseWsAux rest true
      else c :: pyCollapseWsAux rest false

def pyCollapseWs (s : PyS) : PyS := pyCollapseWsAux s false

/-- `str.isupper()`: at least one cased character and no lowercase cased
character (ASCII cased = letters). -/
def pyIsUpper (s : PyS) : Bool :=
  s.any Char.isAlpha && s.all (fun c => !c.isAlpha || c.isUpper)

/-- `str.startswith`. -/
def pyStartsWith (s pre : PyS) : Bool := pre.isPrefixOf s

/-- `s.split('\n')` (separator split, empties kept). -/
def pySplitNl (s : PyS) : List PyS := s.splitOn '\n'

/-- `int(s)` on a string: optional surrounding whitespace, an optional
sign, then decimal digits with single underscores allowed between digits
(Python 3 grammar); `none` models `ValueError`. -/
def pyIntDigitsAux : PyS → Nat → Option Nat
  | [], acc => some acc
  | '_' :: rest, acc =>
      match rest with
      | c :: _ => if c.isDigit then pyIntDigitsAux rest acc else none
      | [] => none
  | c :: rest, acc =>
      if c.isDigit then pyIntDigitsAux rest (acc * 10 + (c.toNat - '0'.toNat))
      else none

def pyInt? (s : PyS) : Option Int :=
  let t := pyStrip s
  let (sign, t) : Int × PyS :=
    match t with
    | '+' :: r => (1, r)
    | '-' :: r => (-1, r)
    | r => (1, r)
  match t with
  | [] => none
  | c :: _ =>
      if c.isDigit then (pyIntDigitsAux t 0).map (fun n => sign * (n : Int))
      else none

/-! ## A small backtracking regex engine

Only the constructs appearing in the repository's patterns are supported:
literals, character classes, class repetition (greedy and lazy, bounded
and unbounded), sequencing, alternation, capture groups, lookahead
`(?=...)`, the anchors `^`/`$` and `\b`.  Python's bounded repetitions of
composite bodies (`X?`, `X{1,3}`) are expanded at transcription time into
alternations that preserve Python's backtracking order. -/

/-- A character class, as a predicate. -/
abbrev CC := Char → Bool

def ccDigit : CC := Char.isDigit
def ccAlpha : CC := fun c => c.isAlpha
def ccUpper : CC := fun c => c.isUpper
def ccLower : CC := fun c => c.isLower
def ccWs : CC := pySpace
/-- `\w`: ASCII word character. -/
def ccWord : CC := fun c => c.isAlphanum || c = '_'
/-- `.` without `re.DOTALL`. -/
def ccDot : CC := fun c => c ≠ '\n'
/-- `.` with `re.DOTALL`, and `[\s\S]`-like classes. -/
def ccAny : CC := fun _ => true
/-- An explicit character set such as `[-–—.:]`. -/
def ccOf (s : String) : CC := fun c => s.data.contains c
def ccOr (a b : CC) : CC := fun c => a c || b c
def ccNot (a : CC) : CC := fun c => !a c

inductive Rx where
  /-- The empty pattern. -/
  | eps : Rx
  /-- A literal, case-insensitive when `ci` is set. -/
  | lit (ci : Bool) (s : PyS) : Rx
  /-- A single character from a class. -/
  | one (c : CC) : Rx
  /-- `c{lo,hi}` (hi `none` = unbounded), greedy unless `lazy`. -/
  | rep (c : CC) (lo : Nat) (hi : Option Nat) (lazy : Bool) : Rx
  | seq (a b : Rx) : Rx
  | alt (a b : Rx) : Rx
  /-- Capture group `i` (Python group numbering, starting at 1). -/
  | grp (i : Nat) (a : Rx) : Rx
  /-- Lookahead `(?=a)`; group captures inside are discarded (none of the
  transcribed lookaheads contain capture groups). -/
  | look (a : Rx) : Rx
  /-- `^` under `re.MULTILINE`. -/
  | bolM : Rx
  /-- `^` without `re.MULTILINE` (start of string only). -/
  | bolS : Rx
  /-- `(?=$|\n)` and `$` under `re.MULTILINE`: end of string or before a
  newline. -/
  | eolAny : Rx
  /-- `$` without `re.MULTILINE`: end of string, or before a final
  newline. -/
  | eolS : Rx
  /-- `\b` word boundary. -/
  | bnd : Rx

/-- Sequence a list of pattern pieces. -/
def rxCat (rs : List Rx) : Rx := rs.foldr Rx.seq Rx.eps

/-- First-to-match alternation (Python's left-to-right order). -/
def rxAlts : List Rx → Rx
  | [] => Rx.eps
  | [r] => r
  | r :: rest => Rx.alt r (rxAlts rest)

/-- `X?` (greedy): try `X`, then the empty match. -/
def rxOpt (r : Rx) : Rx := Rx.alt r Rx.eps

/-- Recorded captures: `(group index, start, stop)`, most recent first. -/
abbrev Groups := List (Nat × Nat × Nat)

/-- Engine state passed to continuations: position, previous character
(for `^`/`\b`), remaining input. -/
abbrev MCont := Nat → Option Char → PyS → Groups → Option (Nat × Groups)

/-- Case-aware character comparison for literals. -/
def chEq (ci : Bool) (a b : Char) : Bool :=
  if ci then a.toLower = b.toLower else a = b

/-- Consume a literal; returns the new position, previous character and
rest of input. -/
def litStep (ci : Bool) : PyS → Nat → Option Char → PyS →
    Option (Nat × Option Char × PyS)
  | [], pos, prev, rest => some (pos, prev, rest)
  | p :: ps, pos, _, rest =>
      match rest with
      | [] => none
      | c :: cs => if chEq ci p c then litStep ci ps (pos + 1) (some c) cs else none

/-- Length of the maximal run of class characters, capped at `hi`. -/
def runLen (c : CC) (hi : Option Nat) : PyS → Nat
  | [] => 0
  | x :: xs =>
      match hi with
      | some 0 => 0
      | some (n + 1) => if c x then runLen c (some n) xs + 1 else 0
      | none => if c x then runLen c none xs + 1 else 0

/-- State after consuming `n` class characters. -/
def skipN (pos : Nat) (prev : Option Char) (rest : PyS) : Nat →
    Nat × Option Char × PyS
  | 0 => (pos, prev, rest)
  | n + 1 =>
      match rest with
      | [] => (pos, prev, rest)
      | c :: cs => skipN (pos + 1) (some c) cs n

/-- The matcher, continuation-passing style.  Backtracking order follows
Python's `re`: alternation left to right, greedy repetition longest
first, lazy repetition shortest first. -/
def Rx.m : Rx → Nat → Option Char → PyS → Groups → MCont → Option (Nat × Groups)
  | .eps, pos, prev, rest, g, k => k pos prev rest g
  | .lit ci s, pos, prev, rest, g, k =>
      match litStep ci s pos prev rest with
      | some (p, pv, r) => k p pv r g
      | none => none
  | .one c, pos, _, rest, g, k =>
      match rest with
      | [] => none
      | x :: xs => if c x then k (pos + 1) (some x) xs g else none
  | .rep c lo hi lazy, pos, prev, rest, g, k =>
      let mx := runLen c hi rest
      if mx < lo then none
      else
        let counts :=
          if lazy then (List.range (mx - lo + 1)).map (fun i => lo + i)
          else (List.range (mx - lo + 1)).map (fun i => mx - i)
        counts.findSome? (fun n =>
          let (p, pv, r) := skipN pos prev rest n
          k p pv r g)
  | .seq a b, pos, prev, rest, g, k =>
      a.m pos prev rest g (fun p pv r g2 => b.m p pv r g2 k)
  | .alt a b, pos, prev, rest, g, k =>
      match a.m pos prev rest g k with
      | some res => some res
      | none => b.m pos prev rest g k
  | .grp i a, pos, prev, rest, g, k =>
      a.m pos prev rest g (fun p pv r g2 => k p pv r ((i, pos, p) :: g2))
  | .look a, pos, prev, rest, g, k =>
      match a.m pos prev rest g (fun p pv r g2 => some (p, g2)) with
      | some _ => k pos prev rest g
      | none => none
  | .bolM, pos, prev, rest, g, k =>
      if pos = 0 || prev = some '\n' then k pos prev rest g else none
  | .bolS, pos, prev, rest, g, k =>
      if pos = 0 then k pos prev rest g else none
  | .eolAny, pos, prev, rest, g, k =>
      match rest with
      | [] => k pos prev rest g
      | c :: _ => if c = '\n' then k pos prev rest g else none
  | .eolS, pos, prev, rest, g, k =>
      match rest with
      | [] => k pos prev rest g
      | [c] => if c = '\n' then k pos prev rest g else none
      | _ => none
  | .bnd, pos, prev, rest, g, k =>
      let before := match prev with | some c => ccWord c | none => false
      let after := match rest with | c :: _ => ccWord c | [] => false
      if before ≠ after then k pos prev rest g else none

/-- A match result: start, stop, captures. -/
structure MRes where
  mstart : Nat
  mstop : Nat
  groups : Groups
deriving Repr, DecidableEq

/-- Top-level continuation. -/
def mTop : MCont := fun p _ _ g => some (p, g)

/-- Try to match anchored at the current state. -/
def mAt (r : Rx) (pos : Nat) (prev : Option Char) (rest : PyS) : Option MRes :=
  (r.m pos prev rest [] mTop).map (fun (e, g) => ⟨pos, e, g⟩)

/-- `re.search`: leftmost match. -/
def reSearchAux (r : Rx) (pos : Nat) (prev : Option Char) (rest : PyS) :
    Option MRes :=
  match mAt r pos prev rest with
  | some res => some res
  | none =>
      match rest with
      | [] => none
      | c :: cs => reSearchAux r (pos + 1) (some c) cs

def reSearch (r : Rx) (s : PyS) : Option MRes := reSearchAux r 0 none s

/-- `re.match`: anchored at the start. -/
def reMatch (r : Rx) (s : PyS) : Option MRes := mAt r 0 none s

/-- Advance the scanning state to position `t`. -/
def advanceTo (pos : Nat) (prev : Option Char) (rest : PyS) (t : Nat) :
    Nat × Option Char × PyS :=
  skipN pos prev rest (t - pos)

/-- `re.finditer`: non-overlapping matches, scanning left to right; after
an empty match the scan advances one character. -/
def reFindAllAux (r : Rx) : Nat → Nat → Option Char → PyS → List MRes
  | 0, _, _, _ => []
  | fuel + 1, pos, prev, rest =>
      match reSearchAux r pos prev rest with
      | none => []
      | some res =>
          let nxt := if res.mstop > res.mstart then res.mstop else res.mstop + 1
          let (p, pv, rst) := advanceTo pos prev rest nxt
          -- when the scan cannot advance (empty match at the end of the
          -- input) Python's scanner is past the string and stops
          res :: (if p < nxt then [] else reFindAllAux r fuel p pv rst)

/-- `re.finditer` over the whole string. -/
def reFindAll (r : Rx) (s : PyS) : List MRes :=
  reFindAllAux r (s.length + 1) 0 none s

/-- `match.group(i)`: the captured text (last capture of the group; `""`
for an unmatched group, which the call sites never rely on). -/
def mGroup (s : PyS) (res : MRes) (i : Nat) : PyS :=
  match res.groups.find? (fun t => t.1 = i) with
  | some (_, st, e) => pySlice s st e
  | none => []

/-! ## Transcription of `contract_constants.py` and the inline patterns

Each `Rx` value below is a one-to-one transcription of a Python pattern
string; the comment above each gives the original.  Case-insensitive call
sites get `ci`-variants. -/

/-- A compiled pattern together with its number of capture groups
(`len(match.groups())` in Python is a property of the pattern). -/
structure RxP where
  rx : Rx
  ng : Nat

/-- Case-sensitive literal piece. -/
def rxL (s : String) : Rx := .lit false (pys s)
/-- Case-insensitive literal piece. -/
def rxLi (s : String) : Rx := .lit true (pys s)
/-- `\s+`. -/
def rxWs1 : Rx := .rep ccWs 1 none false
/-- `\s*`. -/
def rxWs0 : Rx := .rep ccWs 0 none false
/-- `\d+`. -/
def rxD1 : Rx := .rep ccDigit 1 none false
/-- `\d{lo,hi}`. -/
def rxDrep (lo hi : Nat) : Rx := .rep ccDigit lo (some hi) false
/-- `[A-Za-z\s]`. -/
def ccAlphaWs : CC := ccOr ccAlpha ccWs
/-- `[A-Z]`, respecting `re.IGNORECASE`. -/
def ccUpperCi (ci : Bool) : CC := if ci then ccAlpha else ccUpper
/-- `[a-z]`, respecting `re.IGNORECASE`. -/
def ccLowerCi (ci : Bool) : CC := if ci then ccAlpha else ccLower

/-- `ROMAN_TO_NUMBER` (I–XX). -/
def ROMAN_TO_NUMBER : List (PyS × PyS) :=
  [(pys "I", pys "1"), (pys "II", pys "2"), (pys "III", pys "3"),
   (pys "IV", pys "4"), (pys "V", pys "5"), (pys "VI", pys "6"),
   (pys "VII", pys "7"), (pys "VIII", pys "8"), (pys "IX", pys "9"),
   (pys "X", pys "10"), (pys "XI", pys "11"), (pys "XII", pys "12"),
   (pys "XIII", pys "13"), (pys "XIV", pys "14"), (pys "XV", pys "15"),
   (pys "XVI", pys "16"), (pys "XVII", pys "17"), (pys "XVIII", pys "18"),
   (pys "XIX", pys "19"), (pys "XX", pys "20")]

/-- `ROMAN_TO_NUMBER.get(key, default)`. -/
def romanLookup (key default : PyS) : PyS :=
  match ROMAN_TO_NUMBER.find? (fun p => p.1 = key) with
  | some p => p.2
  | none => default

/-- `r"ARTICLE\s+([IVXivx]+)\s*[-–—.:]\s*(.*?)(?=$|\n)"`. -/
def artPat1 (ci : Bool) : RxP :=
  ⟨rxCat [.lit ci (pys "ARTICLE"), rxWs1,
          .grp 1 (.rep (ccOf "IVXivx") 1 none false), rxWs0,
          .one (ccOf "-–—.:"), rxWs0,
          .grp 2 (.rep ccDot 0 none true), .eolAny], 2⟩

/-- `r"ARTICLE\s+(\d+)\s*[-–—.:]\s*(.*?)(?=$|\n)"`. -/
def artPat2 (ci : Bool) : RxP :=
  ⟨rxCat [.lit ci (pys "ARTICLE"), rxWs1, .grp 1 rxD1, rxWs0,
          .one (ccOf "-–—.:"), rxWs0,
          .grp 2 (.rep ccDot 0 none true), .eolAny], 2⟩

/-- `r"(\d+)\.\s*([A-Z][A-Za-z\s]+)(?=$|\n)"`. -/
def artPat3 (ci : Bool) : RxP :=
  ⟨rxCat [.grp 1 rxD1, rxL ".", rxWs0,
          .grp 2 (rxCat [.one (ccUpperCi ci), .rep ccAlphaWs 1 none false]),
          .eolAny], 2⟩

/-- `r"([A-Z][A-Za-z\s]+)\s*\n"`. -/
def artPat4 (ci : Bool) : RxP :=
  ⟨rxCat [.grp 1 (rxCat [.one (ccUpperCi ci), .rep ccAlphaWs 1 none false]),
          rxWs0, rxL "\n"], 1⟩

/-- `r"SECTION\s+(\d+)[.:]\s*(.*?)(?=$|\n)"`. -/
def artPat5 (ci : Bool) : RxP :=
  ⟨rxCat [.lit ci (pys "SECTION"), rxWs1, .grp 1 rxD1, .one (ccOf ".:"),
          rxWs0, .grp 2 (.rep ccDot 0 none true), .eolAny], 2⟩

/-- `ARTICLE_PATTERNS`, with the flag set of the calling site baked in. -/
def ARTICLE_PATTERNS (ci : Bool) : List RxP :=
  [artPat1 ci, artPat2 ci, artPat3 ci, artPat4 ci, artPat5 ci]

/-- `r"(\d+\.\d+)\s+(.*?)(?=$|\n)"`. -/
def secPat1 : RxP :=
  ⟨rxCat [.grp 1 (rxCat [rxD1, rxL ".", rxD1]), rxWs1,
          .grp 2 (.rep ccDot 0 none true), .eolAny], 2⟩

/-- `r"(\d+\.\d+\.\d+)\s+(.*?)(?=$|\n)"`. -/
def secPat2 : RxP :=
  ⟨rxCat [.grp 1 (rxCat [rxD1, rxL ".", rxD1, rxL ".", rxD1]), rxWs1,
          .grp 2 (.rep ccDot 0 none true), .eolAny], 2⟩

/-- `r"(\d+\.\d+[a-z])\s+(.*?)(?=$|\n)"`. -/
def secPat3 : RxP :=
  ⟨rxCat [.grp 1 (rxCat [rxD1, rxL ".", rxD1, .one ccLower]), rxWs1,
          .grp 2 (.rep ccDot 0 none true), .eolAny], 2⟩

/-- `r"([A-Za-z])\.\s+(.*?)(?=$|\n)"`. -/
def secPat4 : RxP :=
  ⟨rxCat [.grp 1 (.one ccAlpha), rxL ".", rxWs1,
          .grp 2 (.rep ccDot 0 none true), .eolAny], 2⟩

/-- `r"\(([a-z])\)\s+(.*?)(?=$|\n)"`. -/
def secPat5 : RxP :=
  ⟨rxCat [rxL "(", .grp 1 (.one ccLower), rxL ")", rxWs1,
          .grp 2 (.rep ccDot 0 none true), .eolAny], 2⟩

/-- `SECTION_PATTERNS` (all call sites are case-sensitive). -/
def SECTION_PATTERNS : List RxP :=
  [secPat1, secPat2, secPat3, secPat4, secPat5]

/-- `r"(.*?(?:AGREEMENT|CONTRACT))"` under `IGNORECASE|MULTILINE`. -/
def titlePat1 : RxP :=
  ⟨.grp 1 (rxCat [.rep ccDot 0 none true,
                  .alt (rxLi "AGREEMENT") (rxLi "CONTRACT")]), 1⟩

/-- `r"(^.+?(?=Between|BETWEEN|between))"` under `IGNORECASE|MULTILINE`. -/
def titlePat2 : RxP :=
  ⟨.grp 1 (rxCat [.bolM, .rep ccDot 1 none true,
                  .look (rxAlts [rxLi "Between", rxLi "BETWEEN",
                                 rxLi "between"])]), 1⟩

/-- `r"(^[A-Z\s]+(?:\s*[-–—]\s*[A-Z\s]+)?)"` under `IGNORECASE|MULTILINE`
(`[A-Z]` matches both cases under `IGNORECASE`). -/
def titlePat3 : RxP :=
  ⟨.grp 1 (rxCat [.bolM, .rep (ccOr ccAlpha ccWs) 1 none false,
                  rxOpt (rxCat [rxWs0, .one (ccOf "-–—"), rxWs0,
                                .rep (ccOr ccAlpha ccWs) 1 none false])]), 1⟩

def TITLE_PATTERNS : List RxP := [titlePat1, titlePat2, titlePat3]

/-- `r"Effective\s+Date:\s*([A-Za-z]+\s+\d{1,2},\s*\d{4})"` (no flags). -/
def effDateLiteralPat : RxP :=
  ⟨rxCat [rxL "Effective", rxWs1, rxL "Date:", rxWs0,
          .grp 1 (rxCat [.rep ccAlpha 1 none false, rxWs1, rxDrep 1 2,
                         rxL ",", rxWs0, rxDrep 4 4])], 1⟩

/-- `r"([A-Z][a-z]+\s+\d{1,2},\s*\d{4})"` (no flags). -/
def monthDayYearPat : RxP :=
  ⟨.grp 1 (rxCat [.one ccUpper, .rep ccLower 1 none false, rxWs1,
                  rxDrep 1 2, rxL ",", rxWs0, rxDrep 4 4]), 1⟩

/-- `r"Between\s+(.+?)\s+and\s+(.+?)(?=\s+(?:Effective Date|WITNESSETH|WHEREAS|NOW, THEREFORE|$))"`
under `IGNORECASE|DOTALL` (`.` matches newlines, `$` is end of string). -/
def betweenPat : RxP :=
  ⟨rxCat [rxLi "Between", rxWs1, .grp 1 (.rep ccAny 1 none true), rxWs1,
          rxLi "and", rxWs1, .grp 2 (.rep ccAny 1 none true),
          .look (rxCat [rxWs1,
                        rxAlts [rxLi "Effective Date", rxLi "WITNESSETH",
                                rxLi "WHEREAS", rxLi "NOW, THEREFORE",
                                .eolS]])], 2⟩

/-- `r"(?:Inc\.|LLC|Ltd\.|Limited|Corp\.|Corporation|B\.V\.|GmbH)"`
(no flags), the organisation-suffix screen. -/
def orgSuffixPat : RxP :=
  ⟨rxAlts [rxL "Inc.", rxL "LLC", rxL "Ltd.", rxL "Limited", rxL "Corp.",
           rxL "Corporation", rxL "B.V.", rxL "GmbH"], 0⟩

/-- `r"Company|Corporation|Technologies|Systems|International"` (no
flags), the second organisation screen of `extract_parties`. -/
def orgWordPat : RxP :=
  ⟨rxAlts [rxL "Company", rxL "Corporation", rxL "Technologies",
           rxL "Systems", rxL "International"], 0⟩

/-- `ORG_TYPES`: `(pattern, type name)` pairs, tried in order. -/
def ORG_TYPES : List (RxP × PyS) :=
  [(⟨rxAlts [rxL "Inc.", rxL "Corporation", rxL "Corp."], 0⟩,
    pys "Corporation"),
   (⟨rxL "LLC", 0⟩, pys "Limited Liability Company"),
   (⟨rxAlts [rxL "Ltd.", rxL "Limited"], 0⟩, pys "Limited Company"),
   (⟨rxL "B.V.", 0⟩, pys "Dutch Private Limited Company"),
   (⟨rxL "GmbH", 0⟩, pys "German Limited Liability Company"),
   (⟨rxL "S.A.", 0⟩, pys "Anonymous Society"),
   (⟨rxL "LLP", 0⟩, pys "Limited Liability Partnership"),
   (⟨rxL "AG", 0⟩, pys "German Public Company"),
   (⟨rxL "ApS", 0⟩, pys "Danish Private Limited Company"),
   (⟨rxAlts [rxL "OY", rxL "OYJ"], 0⟩, pys "Finnish Company"),
   (⟨rxAlts [rxL "PLC", rxL "P.L.C."], 0⟩, pys "Public Limited Company")]

/-- `[A-Za-z0-9\s,\.&]`. -/
def ccCompany : CC := ccOr (fun c => c.isAlphanum) (ccOr ccWs (ccOf ",.&"))
/-- `[A-Za-z\s\.-]`. -/
def ccPersonCh : CC := ccOr ccAlpha (ccOr ccWs (ccOf ".-"))
/-- `[_\s-]`. -/
def ccFill : CC := ccOr ccWs (ccOf "_-")

/-- First signature pattern (under `IGNORECASE|MULTILINE`):
`(?:For|By):\s*([A-Za-z0-9\s,\.&]+)\s*[_\s-]*\s*(?:Name|Signature):\s*([A-Za-z\s\.-]+)\s*(?:Title|Position):\s*([A-Za-z\s\.-]+)`. -/
def sigPat1 : RxP :=
  ⟨rxCat [rxAlts [rxLi "For", rxLi "By"], rxLi ":", rxWs0,
          .grp 1 (.rep ccCompany 1 none false), rxWs0,
          .rep ccFill 0 none false, rxWs0,
          rxAlts [rxLi "Name", rxLi "Signature"], rxLi ":", rxWs0,
          .grp 2 (.rep ccPersonCh 1 none false), rxWs0,
          rxAlts [rxLi "Title", rxLi "Position"], rxLi ":", rxWs0,
          .grp 3 (.rep ccPersonCh 1 none false)], 3⟩

/-- Second signature pattern (under `IGNORECASE|MULTILINE`):
`([A-Za-z0-9\s,\.&]+)\s*\n\s*By:\s*[_\s-]*\s*\n\s*Name:\s*([A-Za-z\s\.-]+)\s*\n\s*Title:\s*([A-Za-z\s\.-]+)`. -/
def sigPat2 : RxP :=
  ⟨rxCat [.grp 1 (.rep ccCompany 1 none false), rxWs0, rxL "\n", rxWs0,
          rxLi "By:", rxWs0, .rep ccFill 0 none false, rxWs0, rxL "\n",
          rxWs0, rxLi "Name:", rxWs0,
          .grp 2 (.rep ccPersonCh 1 none false), rxWs0, rxL "\n", rxWs0,
          rxLi "Title:", rxWs0,
          .grp 3 (.rep ccPersonCh 1 none false)], 3⟩

def SIGNATURE_PATTERNS : List RxP := [sigPat1, sigPat2]

/-- `DATE_CONTEXTS`. -/
def DATE_CONTEXTS : List PyS :=
  [pys "effective date", pys "dated as of", pys "agreement date",
   pys "executed on", pys "entered into on"]

/-- `DOC_TYPES`: document type name mapped to its keyword list;
iteration follows insertion order. -/
def DOC_TYPES : List (PyS × List PyS) :=
  [(pys "Non-Disclosure Agreement",
    [pys "confidential", pys "disclose", pys "NDA", pys "non-disclosure"]),
   (pys "Employment Contract",
    [pys "employ", pys "salary", pys "position", pys "hire", pys "job",
     pys "work"]),
   (pys "Lease Agreement",
    [pys "lease", pys "rent", pys "landlord", pys "tenant", pys "property"]),
   (pys "License Agreement",
    [pys "license", pys "royalty", pys "intellectual property",
     pys "patent"]),
   (pys "Services Agreement",
    [pys "service", pys "perform", pys "deliverable"]),
   (pys "Purchase Agreement",
    [pys "purchase", pys "buy", pys "acquire", pys "sale"]),
   (pys "Merger Agreement",
    [pys "merger", pys "acquire", pys "acquisition", pys "combine"])]

/-! ## Data model

Dictionaries that can lack keys are modelled with `Option` fields;
reading a missing key (Python `KeyError`) is an exception, modelled with
`Option` results. -/

/-- A page record; `text` is `none` when the `"text"` key is absent. -/
structure Page where
  text : Option PyS
deriving Repr, DecidableEq

/-- A document record; `pages` is `none` when the `"pages"` key is
absent. -/
structure Document where
  pages : Option (List Page)
deriving Repr, DecidableEq

structure Section where
  number : PyS
  title : PyS
  content : PyS
deriving Repr, DecidableEq

structure Article where
  number : PyS
  numeric_id : PyS
  title : PyS
  content : PyS
  sections : List Section
deriving Repr, DecidableEq

structure Signatory where
  name : PyS
  title : PyS
deriving Repr, DecidableEq

/-- A party dict; `ptype` embeds the `"type"` key. -/
structure Party where
  name : PyS
  ptype : PyS
  signatories : List Signatory
deriving Repr, DecidableEq

/-! ## `extract/txt_parser.py` -/

/-- An article/section header match collected by the TXT parser:
number, title, `match.start()`, `match.end()`. -/
structure HeadM where
  num : PyS
  htitle : PyS
  hstart : Nat
  hstop : Nat
deriving Repr, DecidableEq

/-- Collect `re.finditer` matches of every pattern in a list, recording
group 1, group 2 (or `"UNTITLED"` for one-group patterns) and the span. -/
def collectHeadMatches (pats : List RxP) (text : PyS) : List HeadM :=
  pats.flatMap (fun p =>
    (reFindAll p.rx text).map (fun m =>
      ⟨mGroup text m 1,
       if p.ng > 1 then pyStrip (mGroup text m 2) else pys "UNTITLED",
       m.mstart, m.mstop⟩))

/-- `matches.sort(key=lambda x: x["start"])` — CPython's sort is stable,
so a stable insertion sort on the same key agrees with it. -/
def sortByStart (ms : List HeadM) : List HeadM :=
  List.insertionSort (fun a b => a.hstart ≤ b.hstart) ms

/-- `extract_sections_from_text` (it mutates `article["sections"]`; the
embedding returns the section list).  Uses `SECTION_PATTERNS` under
`re.MULTILINE`. -/
def extract_sections_from_text (articleText : PyS) : List Section :=
  let sorted := sortByStart (collectHeadMatches SECTION_PATTERNS articleText)
  (List.range sorted.length).filterMap (fun i =>
    (sorted.get? i).map (fun m =>
      let sstart := m.hstop
      let send :=
        match sorted.get? (i + 1) with
        | some nxt => nxt.hstart
        | none => articleText.length
      ⟨m.num, m.htitle, pyStrip (pySlice articleText sstart send)⟩))

/-- `extract_articles_from_text`: pattern pass over the whole text with
`ARTICLE_PATTERNS` under `re.MULTILINE | re.IGNORECASE`, position-sorted,
then spans and nested sections. -/
def extract_articles_from_text (text : PyS) : List Article :=
  let sorted := sortByStart (collectHeadMatches (ARTICLE_PATTERNS true) text)
  (List.range sorted.length).filterMap (fun i =>
    (sorted.get? i).map (fun m =>
      let numericId := romanLookup (pyUpper m.num) m.num
      let astart := m.hstop
      let aend :=
        match sorted.get? (i + 1) with
        | some nxt => nxt.hstart
        | none => text.length
      let content := pyStrip (pySlice text astart aend)
      ⟨m.num, numericId, m.htitle, content,
       extract_sections_from_text content⟩))

/-- `(?i)\bagreement\b` and friends, the document-type probes. -/
def txtTypeAgreementPat : RxP := ⟨rxCat [.bnd, rxLi "agreement", .bnd], 0⟩
def txtTypeContractPat : RxP := ⟨rxCat [.bnd, rxLi "contract", .bnd], 0⟩
def txtTypeAmendmentPat : RxP := ⟨rxCat [.bnd, rxLi "amendment", .bnd], 0⟩
def txtTypeAddendumPat : RxP := ⟨rxCat [.bnd, rxLi "addendum", .bnd], 0⟩

/-- The date alternative
`(\w+\s+\d{1,2}(?:st|nd|rd|th)?[\s,]+\d{4}|\d{1,2}[/.-]\d{1,2}[/.-]\d{2,4})`
shared by the effective/execution date patterns (under `(?i)`). -/
def txtDateGroup : Rx :=
  rxAlts
    [rxCat [.rep ccWord 1 none false, rxWs1, rxDrep 1 2,
            rxOpt (rxAlts [rxLi "st", rxLi "nd", rxLi "rd", rxLi "th"]),
            .rep (ccOr ccWs (ccOf ",")) 1 none false, rxDrep 4 4],
     rxCat [rxDrep 1 2, .one (ccOf "/.-"), rxDrep 1 2, .one (ccOf "/.-"),
            rxDrep 2 4]]

/-- `(?i)effective\s+(?:as\s+of\s+)?(?:date|:)?\s*[:;]?\s*(<date>)`. -/
def txtEffDatePat : RxP :=
  ⟨rxCat [rxLi "effective", rxWs1,
          rxOpt (rxCat [rxLi "as", rxWs1, rxLi "of", rxWs1]),
          rxOpt (rxAlts [rxLi "date", rxLi ":"]), rxWs0,
          .rep (ccOf ":;") 0 (some 1) false, rxWs0,
          .grp 1 txtDateGroup], 1⟩

/-- `(?i)(?:executed|signed|dated)(?:\s+as\s+of)?\s+(?:this)?\s*(<date>)`. -/
def txtExecDatePat : RxP :=
  ⟨rxCat [rxAlts [rxLi "executed", rxLi "signed", rxLi "dated"],
          rxOpt (rxCat [rxWs1, rxLi "as", rxWs1, rxLi "of"]), rxWs1,
          rxOpt (rxLi "this"), rxWs0, .grp 1 txtDateGroup], 1⟩

/-- One repetition of the party body
`[A-Z][A-Za-z\s,.']*(?:Inc\.|LLC|Ltd\.?|Corporation|Company|Co\.|LP|LLP|Trust|Association)`
(under `(?i)`, so `[A-Z]` is any letter). -/
def txtPartyBody : Rx :=
  rxCat [.one ccAlpha, .rep (ccOr ccAlpha (ccOr ccWs (ccOf ",.'"))) 0 none false,
         rxAlts [rxLi "Inc.", rxLi "LLC",
                 rxCat [rxLi "Ltd", .rep (ccOf ".") 0 (some 1) false],
                 rxLi "Corporation", rxLi "Company", rxLi "Co.", rxLi "LP",
                 rxLi "LLP", rxLi "Trust", rxLi "Association"]]

/-- `(?i)((?:between|by and between|among)\s+)((?:<body>){1,3})` — the
`{1,3}` is expanded as `body (body (body)?)?`, preserving Python's
greedy backtracking order. -/
def txtPartiesPat : RxP :=
  ⟨rxCat [.grp 1 (rxCat [rxAlts [rxLi "between", rxLi "by and between",
                                 rxLi "among"], rxWs1]),
          .grp 2 (rxCat [txtPartyBody,
                         rxOpt (rxCat [txtPartyBody, rxOpt txtPartyBody])])],
   2⟩

/-- The metadata dict built by `extract_contract_metadata_from_text`
(`parties` is a list of `{"name": ...}` dicts; only the names are
modelled). -/
structure TxtMetadata where
  title : PyS
  document_type : PyS
  execution_date : PyS
  effective_date : PyS
  parties : List PyS
deriving Repr, DecidableEq

/-- `agreement_types` from `extract_contract_metadata_from_text`. -/
def agreementTypes : List PyS :=
  [pys "service", pys "employment", pys "non-disclosure",
   pys "confidentiality", pys "sale", pys "purchase", pys "master",
   pys "subscription", pys "consulting", pys "license", pys "partnership",
   pys "distribution", pys "supply"]

/-- `max(potential_titles, key=lambda x: x[1])`: first element of maximal
score (Python's `max` keeps the earliest maximum). -/
def maxByScore (h : PyS × Nat) (t : List (PyS × Nat)) : PyS × Nat :=
  t.foldl (fun best x => if x.2 > best.2 then x else best) h

/-- `extract_contract_metadata_from_text`. -/
def extract_contract_metadata_from_text (text : PyS) : TxtMetadata :=
  let head1000 := pySlice text 0 1000
  let docType :=
    if (reSearch txtTypeAgreementPat.rx head1000).isSome then pys "Agreement"
    else if (reSearch txtTypeContractPat.rx head1000).isSome then
      pys "Contract"
    else if (reSearch txtTypeAmendmentPat.rx head1000).isSome then
      pys "Amendment"
    else if (reSearch txtTypeAddendumPat.rx head1000).isSome then
      pys "Addendum"
    else pys "Unknown"
  let nonEmptyLines :=
    ((pySplitNl text).map pyStrip).filter (fun l => !l.isEmpty)
  -- Method 1: ALL CAPS lines among the first 10 non-empty lines
  let m1 := (nonEmptyLines.take 10).filterMap (fun line =>
    if pyIsUpper line && decide (2 ≤ pyWordCount line) &&
        decide (pyWordCount line ≤ 15) then
      if [pys "AGREEMENT", pys "CONTRACT", pys "LICENSE",
          pys "LEASE"].any (fun kw => pyIn kw line) then
        some (line, 10)
      else some (line, 5)
    else if [pys "AGREEMENT", pys "CONTRACT",
             pys "LICENSE"].any (fun kw => pyIn kw (pyUpper line)) then
      some (line, 8)
    else none)
  -- Method 2: agreement-term lines among the first 15 non-empty lines
  let m2 := (nonEmptyLines.take 15).filterMap (fun line =>
    let lower := pyLower line
    if agreementTypes.any (fun term =>
        pyIn (term ++ pys " agreement") lower) then
      some (line, 9)
    else if pyIn (pys "agreement") lower && decide (pyWordCount line ≤ 10)
    then some (line, 7)
    else none)
  let titles := m1 ++ m2
  let title :=
    match titles with
    | t :: ts => (maxByScore t ts).1
    | [] =>
        match nonEmptyLines with
        | l :: _ => l
        | [] => pys "Untitled Contract"
  let effDate :=
    match reSearch txtEffDatePat.rx text with
    | some m => pyStrip (mGroup text m 1)
    | none => []
  let execDate :=
    match reSearch txtExecDatePat.rx text with
    | some m => pyStrip (mGroup text m 1)
    | none => []
  let parties :=
    (reFindAll txtPartiesPat.rx (pySlice text 0 3000)).filterMap (fun m =>
      let partyText := pyStrip (mGroup (pySlice text 0 3000) m 2)
      if !partyText.isEmpty && decide (partyText.length > 3) then
        some partyText
      else none)
  ⟨title, docType, execDate, effDate, parties⟩

/-! ## External NLP services

SpaCy and the ContractBERT pipelines are external collaborators; they are
modelled as function-valued parameters (pure functions of their text
input, as the spec's annotation-service contract requires). -/

/-- A SpaCy entity: label, text, token start index (used for proximity
matching). -/
structure SpacyEnt where
  label : PyS
  text : PyS
  tokStart : Int
deriving Repr, DecidableEq

/-- The SpaCy capabilities the embedded code consumes. -/
structure Nlp where
  sents : PyS → List PyS
  ents : PyS → List SpacyEnt
  nounChunks : PyS → List PyS

/-- A ContractBERT NER result (`entity.get("word","")`,
`entity.get("entity_group","")`). -/
structure BertEnt where
  group : PyS
  word : PyS
deriving Repr, DecidableEq

abbrev Ner := PyS → List BertEnt

/-- A ContractBERT classifier result; the score is modelled as a
rational. -/
structure ClassRes where
  label : PyS
  score : ℚ

abbrev Classifier := PyS → List ClassRes

/-! ## `src/extract/articles.py` (the NLP segmenter)

`extract_articles(data, nlp, contractbert_ner)`: candidate collection by
ContractBERT, a SpaCy fallback, an integer sort of `numeric_id`, then an
in-place section pass.  A missing `"pages"`/`"text"` key or the
`ValueError` raised by a zero chunk step is an exception (`none`). -/

/-- `str(n)` for the synthetic numbered article. -/
def natStr (n : Nat) : PyS := (toString n).data

/-- `re.match(r"ARTICLE|Article|Section|\d+\.\s*[A-Z]", sent.text)`. -/
def headerCheckPat : RxP :=
  ⟨rxAlts [rxL "ARTICLE", rxL "Article", rxL "Section",
           rxCat [rxD1, rxL ".", rxWs0, .one ccUpper]], 0⟩

/-- `re.match(r"^\d+\.\d+\s+[A-Z]", sent.text)`. -/
def secCheck1Pat : RxP :=
  ⟨rxCat [.bolS, rxD1, rxL ".", rxD1, rxWs1, .one ccUpper], 0⟩

/-- `re.match(r"^[a-z]\)\s+[A-Z]", sent.text)`. -/
def secCheck2Pat : RxP :=
  ⟨rxCat [.bolS, .one ccLower, rxL ")", rxWs1, .one ccUpper], 0⟩

/-- `re.match(r"\d+\.\d+\s+\w+|\([a-z]\)\s+\w+", word)`. -/
def bertSecCheckPat : RxP :=
  ⟨rxAlts [rxCat [rxD1, rxL ".", rxD1, rxWs1, .rep ccWord 1 none false],
           rxCat [rxL "(", .one ccLower, rxL ")", rxWs1,
                  .rep ccWord 1 none false]], 0⟩

/-- Build the candidate article from the first matching pattern
(`number`, `numeric_id` through `ROMAN_TO_NUMBER`, stripped title or
`"UNTITLED"`, empty content and sections). -/
def mkCandidate (p : RxP) (text : PyS) (m : MRes) : Article :=
  let num := mGroup text m 1
  ⟨num, romanLookup (pyUpper num) num,
   if p.ng > 1 then pyStrip (mGroup text m 2) else pys "UNTITLED",
   [], []⟩

/-- `for pattern in ARTICLE_PATTERNS: match = re.search(...); if match:
...; break`. -/
def firstPatSearch (pats : List RxP) (text : PyS) : Option Article :=
  pats.findSome? (fun p => (reSearch p.rx text).map (mkCandidate p text))

/-- One SpaCy sentence step of the fallback branch (lines 87–121): a
pattern-based candidate for header-looking sentences, then — only while
the accumulated list is still empty — a synthetic numbered article for a
short all-uppercase sentence. -/
def spacySentStep (arts : List Article) (sentText : PyS) : List Article :=
  let arts1 :=
    if pyIsUpper sentText || (reMatch headerCheckPat.rx sentText).isSome then
      match firstPatSearch (ARTICLE_PATTERNS false) sentText with
      | some a => arts ++ [a]
      | none => arts
    else arts
  if arts1.isEmpty && pyIsUpper sentText &&
      decide (pyWordCount sentText < 8) then
    arts1 ++ [⟨natStr (arts1.length + 1), natStr (arts1.length + 1),
               pyStrip sentText, [], []⟩]
  else arts1

/-- `int(x["numeric_id"])` with the `.getD` value only used when parsing
succeeded. -/
def intKey (a : Article) : Int := (pyInt? a.numeric_id).getD 0

/-- `try: articles.sort(key=lambda x: int(x["numeric_id"])) except
(ValueError, TypeError): pass` — CPython computes every key before
reordering, so a failing key leaves the list untouched; when all keys
parse, timsort's output is the unique stable sort, which the stable
insertion sort reproduces. -/
def pySortByIntKey (arts : List Article) : List Article :=
  if arts.all (fun a => (pyInt? a.numeric_id).isSome) then
    List.insertionSort (fun x y => intKey x ≤ intKey y) arts
  else arts

/-- `f"ARTICLE\s+{num}|Article\s+{num}"` plus `|{title}` when the title
is non-empty (line 134–136), compiled with `re.IGNORECASE`. -/
def artHeaderPat1 (a : Article) : Rx :=
  rxAlts ([rxCat [.lit true (pys "ARTICLE"), rxWs1, .lit true a.number],
           rxCat [.lit true (pys "Article"), rxWs1, .lit true a.number]] ++
          (if a.title.isEmpty then [] else [.lit true a.title]))

/-- The next-article pattern of line 157: the title alternative is always
included (even when empty, in which case it matches immediately). -/
def artHeaderPat2 (a : Article) : Rx :=
  rxAlts [rxCat [.lit true (pys "ARTICLE"), rxWs1, .lit true a.number],
          rxCat [.lit true (pys "Article"), rxWs1, .lit true a.number],
          .lit true a.title]

/-- `s[i:]` with a possibly negative Python index. -/
def pySliceFromInt (s : PyS) (i : Int) : PyS :=
  if i < 0 then pyLastN s (-i).toNat else s.drop i.toNat

/-- Fill the contents of the sections found for one article (lines
232–253): locate `"{number} {title}"`, then cut at the next section's
header or the article end. -/
def contentFillSecs (articleText : PyS) (secs : List Section) :
    List Section :=
  (List.range secs.length).filterMap (fun i =>
    (secs.get? i).map (fun s =>
      let pat := rxCat [.lit false s.number, rxWs1, .lit false s.title]
      match reSearch pat articleText with
      | none => s
      | some m =>
          let sstart := m.mstop
          let send :=
            match secs.get? (i + 1) with
            | some nxt =>
                let npat := rxCat [.lit false nxt.number, rxWs1,
                                   .lit false nxt.title]
                match reSearch npat (articleText.drop sstart) with
                | some nm => sstart + nm.mstart
                | none => articleText.length
            | none => articleText.length
          { s with content := pyStrip (pySlice articleText sstart send) }))

/-- The per-article section pass (lines 131–265).  `arts` is the sorted
candidate list (the pass only ever mutates `sections` and `content`, so
neighbour reads of `number`/`title` see the original values).  Returns
`none` for the `ValueError` raised by `range(0, 0, 0)` when the resolved
article text is empty. -/
def fillArticle (nlp : Nlp) (ner : Ner) (fullText : PyS)
    (arts : List Article) (idx : Nat) (article : Article) :
    Option Article :=
  let start0 : Int :=
    match reSearch (artHeaderPat1 article) fullText with
    | some m => (m.mstart : Int)
    | none => -1
  let articleStart : Int :=
    if start0 = -1 then
      if idx = 0 then 0
      else
        match arts.get? (idx - 1) with
        | some prev =>
            let p := pyFind fullText prev.title
            if p > 0 then p + prev.title.length else p
        | none => -1
    else start0
  let articleEndRel : Option Nat :=
    if idx < arts.length - 1 then
      match arts.get? (idx + 1) with
      | some nxt =>
          (reSearch (artHeaderPat2 nxt)
            (pySliceFromInt fullText articleStart)).map (fun m => m.mstart)
      | none => none
    else none
  if articleStart < 0 then some article
  else
    let st := articleStart.toNat
    let aend :=
      match articleEndRel with
      | some rel => st + rel
      | none => fullText.length
    let articleText := pySlice fullText st aend
    -- `article_chunk_size = min(len(article_text), 10000)`; a zero size
    -- makes `range(0, 0, 0)` raise ValueError
    if articleText.isEmpty then none
    else
      let size := min articleText.length 10000
      let articleChunks := pyChunks articleText articleText.length size
      let sectionChunks := articleChunks.flatMap (fun chunk =>
        (nlp.sents chunk).filter (fun s =>
          (reMatch secCheck1Pat.rx s).isSome ||
          (reMatch secCheck2Pat.rx s).isSome))
      let sections1 := article.sections ++
        sectionChunks.filterMap (fun st' =>
          SECTION_PATTERNS.findSome? (fun p =>
            (reSearch p.rx st').bind (fun m =>
              if p.ng ≥ 2 then
                some (⟨mGroup st' m 1, pyStrip (mGroup st' m 2), []⟩ :
                  Section)
              else none)))
      let sections2 :=
        if sections1.isEmpty then
          let bertChunks := pyChunks articleText
            (min articleText.length 20000) 450
          bertChunks.foldl (fun secs chunk =>
            (ner chunk).foldl (fun secs e =>
              if (reMatch bertSecCheckPat.rx e.word).isSome then
                match SECTION_PATTERNS.findSome? (fun p =>
                  (reSearch p.rx e.word).bind (fun m =>
                    if p.ng ≥ 2 then
                      some (⟨mGroup e.word m 1,
                             pyStrip (mGroup e.word m 2), []⟩ : Section)
                    else none)) with
                | some s =>
                    if secs.any (fun s0 => s0.number = s.number) then secs
                    else secs ++ [s]
                | none => secs
              else secs) secs) []
        else sections1
      let sections3 := contentFillSecs articleText sections2
      if sections3.isEmpty then
        let contentStart :=
          match (ARTICLE_PATTERNS false).findSome? (fun p =>
            reSearch p.rx articleText) with
          | some m => m.mstop
          | none => 0
        some { article with
               content := pyStrip (articleText.drop contentStart),
               sections := [] }
      else some { article with sections := sections3 }

/-- The per-document body of `extract_articles` (the accumulated list is
shared across documents, as in the source). -/
def extractArticlesDoc (nlp : Nlp) (ner : Ner) (arts : List Article)
    (document : Document) : Option (List Article) := do
  let pages ← document.pages
  let texts ← pages.mapM (fun p => p.text)
  let fullText := pyJoinNl texts
  let textChunks := pyChunks fullText fullText.length 10000
  let bertChunks := pyChunks fullText (min fullText.length 50000) 450
  -- ContractBERT structural entities (lines 39–57)
  let structureEntities := bertChunks.flatMap (fun chunk =>
    (ner chunk).filterMap (fun e =>
      if (e.group = pys "ORG" || e.group = pys "LAW") &&
          (pyIn (pys "ARTICLE") (pyUpper e.word) ||
           (ARTICLE_PATTERNS true).any (fun p =>
             (reMatch p.rx e.word).isSome)) then
        some e.word
      else none))
  -- candidates from the structural entities (lines 59–79)
  let arts1 := arts ++ structureEntities.filterMap
    (firstPatSearch (ARTICLE_PATTERNS true))
  -- SpaCy fallback when nothing was identified (lines 81–121)
  let arts2 :=
    if arts1.isEmpty then
      textChunks.foldl (fun acc chunk =>
        (nlp.sents chunk).foldl spacySentStep acc) arts1
    else arts1
  -- sort (lines 123–129), then the section pass (lines 131–265)
  let sorted := pySortByIntKey arts2
  (List.range sorted.length).mapM (fun idx => do
    let a ← sorted.get? idx
    fillArticle nlp ner fullText sorted idx a)

/-- `extract_articles(data, nlp, contractbert_ner)` from
`src/extract/articles.py` (the `src/src` tree): note there is no
synthetic default-article step — when no candidate is found the function
returns the empty list. -/
def extract_articles (data : List Document) (nlp : Nlp) (ner : Ner) :
    Option (List Article) :=
  data.foldlM (extractArticlesDoc nlp ner) []

/-! ## `src/extract/metadata.py` (the metadata resolver)

`extract_contract_metadata(data, nlp, contractbert_ner,
contractbert_classifier)`.  The `DATE_PATTERNS` constant the module
imports is not part of the provided sources (the shipped
`contract_constants.py` does not define it), so the embedding takes the
compiled date-pattern list as a parameter; every theorem below holds for
all values of it. -/

/-- The six entity buckets collected from ContractBERT. -/
structure EntBuckets where
  date : List PyS
  org : List PyS
  person : List PyS
  money : List PyS
  time : List PyS
  loc : List PyS
deriving Repr, DecidableEq

def EntBuckets.empty : EntBuckets := ⟨[], [], [], [], [], []⟩

/-- One NER result folded into the buckets (lines 74–85), including the
DATE fragment-skip against the last three collected dates. -/
def updEnt (b : EntBuckets) (e : BertEnt) : EntBuckets :=
  let w := pyStrip e.word
  if !w.isEmpty && decide (w.length > 1) then
    if e.group = pys "DATE" then
      if !b.date.isEmpty && (pyLastN b.date 3).any (fun dw =>
          pyStartsWith dw w || pyStartsWith w dw) then b
      else { b with date := b.date ++ [w] }
    else if e.group = pys "ORG" then { b with org := b.org ++ [w] }
    else if e.group = pys "PERSON" then { b with person := b.person ++ [w] }
    else if e.group = pys "MONEY" then { b with money := b.money ++ [w] }
    else if e.group = pys "TIME" then { b with time := b.time ++ [w] }
    else if e.group = pys "LOC" then { b with loc := b.loc ++ [w] }
    else b
  else b

/-- Entity collection over 450-character chunks of the first page
(capped at 10000 characters). -/
def collectEnts (ner : Ner) (fp : PyS) : EntBuckets :=
  (pyChunks fp (min fp.length 10000) 450).foldl
    (fun b chunk => (ner chunk).foldl updEnt b) EntBuckets.empty

/-- `re.sub(r'[.:,;]', ' ', first_page_text.lower())` — a
length-preserving normalisation. -/
def normText (fp : PyS) : PyS :=
  (pyLower fp).map (fun c => if (pys ".:,;").contains c then ' ' else c)

/-- Candidate dates: ContractBERT dates extended by the `DATE_PATTERNS`
matches not already present (lines 90–100). -/
def allPotentialDates (datePats : List RxP) (fp : PyS)
    (bertDates : List PyS) : List PyS :=
  datePats.foldl (fun all p =>
    (reFindAll p.rx fp).foldl (fun all m =>
      let ds := pySlice fp m.mstart m.mstop
      if all.contains ds then all else all ++ [ds]) all) bertDates

/-- The closest-date fold for one context (lines 110–123): first
occurrence position of the lowercased date in the normalised text,
strictly after the context, within 100 characters, strict-minimum
distance (ties keep the earlier date). -/
def ctxClosest (norm : PyS) (cpos : Int) (dates : List PyS) :
    Option (PyS × Int) :=
  dates.foldl (fun best date =>
    let dpos := pyFind norm (pyLower date)
    if dpos > cpos && dpos - cpos < 100 then
      match best with
      | none => some (date, dpos - cpos)
      | some (_, cur) =>
          if dpos - cpos < cur then some (date, dpos - cpos) else best
    else best) none

/-- The context loop (lines 103–128): first context present in the
normalised text that has a qualifying date wins. -/
def ctxLoop (norm : PyS) (dates : List PyS) : List PyS → Option PyS
  | [] => none
  | ctx :: rest =>
      let cpos := pyFind norm ctx
      if cpos ≥ 0 then
        match ctxClosest norm cpos dates with
        | some (d, _) => some d
        | none => ctxLoop norm dates rest
      else ctxLoop norm dates rest

/-- `label_mapping` (lines 46–55). -/
def labelMapping : List (PyS × PyS) :=
  [(pys "LABEL_0", pys "Contract Agreement"),
   (pys "LABEL_1", pys "License Agreement"),
   (pys "LABEL_2", pys "Service Agreement"),
   (pys "LABEL_3", pys "Employment Agreement"),
   (pys "LABEL_4", pys "Non-Disclosure Agreement"),
   (pys "LABEL_5", pys "Sales Agreement"),
   (pys "LABEL_6", pys "Lease Agreement"),
   (pys "LABEL_7", pys "Financial Agreement")]

/-- The `"type"` value of a metadata party: `"Organization"`, or — via
the `DOC_TYPES.items()` loop, whose values are keyword lists — a list. -/
inductive MetaTy where
  | org : MetaTy
  | keywords (ws : List PyS) : MetaTy
deriving Repr, DecidableEq

/-- A metadata party entry: the filtered path stores bare strings, the
`Between`-split path stores `{"name": ..., "type": ...}` dicts. -/
inductive MetaParty where
  | plain (name : PyS) : MetaParty
  | withTy (name : PyS) (ty : MetaTy) : MetaParty
deriving Repr, DecidableEq

/-- The metadata dict of `extract_contract_metadata`. -/
structure CMetadata where
  title : PyS
  effective_date : PyS
  document_type : PyS
  parties : List MetaParty
deriving Repr, DecidableEq

/-- The false-positive stoplist of lines 155–156. -/
def metaStop (party : PyS) : Bool :=
  [pys "article", pys "section", pys "this agreement",
   pys "hereinafter"].any (fun t => pyIn t (pyLower party))

/-- The deduplication step of lines 152–167: drop stoplisted names; a
candidate related by substring to the first matching accepted entry
replaces it when strictly longer, otherwise is dropped; unrelated
candidates are appended. -/
def metaDedupStep (acc : List PyS) (party : PyS) : List PyS :=
  if metaStop party then acc
  else
    match acc.find? (fun ex => pyIn party ex || pyIn ex party) with
    | none => acc ++ [party]
    | some ex =>
        if party.length > ex.length then acc.erase ex ++ [party]
        else acc

def metaDedup (candidates : List PyS) : List PyS :=
  candidates.foldl metaDedupStep []

/-- The party filter of lines 144–149. -/
def metaPartyFilter (orgs : List PyS) : List PyS :=
  orgs.filter (fun org =>
    decide (pyWordCount org > 1) &&
    ((reSearch orgSuffixPat.rx org).isSome ||
     [pys "company", pys "corporation", pys "technologies",
      pys "systems"].any (fun t => pyIn t (pyLower org))))

/-- The effective-date code path of lines 26–29 and 87–138, as the
source sequences it. -/
def codeEffectiveDate (datePats : List RxP) (fp : PyS)
    (bertDates : List PyS) : PyS :=
  let ed1 :=
    match reSearch effDateLiteralPat.rx fp with
    | some m => pyStrip (mGroup fp m 1)
    | none => []
  if !ed1.isEmpty then ed1
  else
    let dates := allPotentialDates datePats fp bertDates
    match ctxLoop (normText fp) dates DATE_CONTEXTS with
    | some d => d
    | none =>
        match reSearch monthDayYearPat.rx fp with
        | some m => mGroup fp m 1
        | none =>
            match bertDates with
            | d :: _ => d
            | [] => []

/-- The title resolution of lines 171–202. -/
def codeTitle (nlp : Nlp) (fp : PyS) : PyS :=
  let sentsList := nlp.sents (pySlice fp 0 (min fp.length 15000))
  let candidates := ((sentsList.take 5).filter (fun s =>
    (pyIsUpper s && decide (3 ≤ pyWordCount s) &&
     decide (pyWordCount s ≤ 15)) ||
    (pyIn (pys "AGREEMENT") s || pyIn (pys "CONTRACT") s))).map pyStrip
  match candidates with
  | c :: cs =>
      cs.foldl (fun best cand =>
        if (pyIn (pys "AGREEMENT") cand || pyIn (pys "CONTRACT") cand) &&
            decide (pyWordCount cand < 15) then cand
        else best) c
  | [] =>
      match TITLE_PATTERNS.findSome? (fun p =>
        (reSearch p.rx fp).bind (fun m =>
          let t := pyStrip (mGroup fp m 1)
          if pyWordCount t ≤ 15 then some t else none)) with
      | some t => t
      | none => []

/-- The `Between ... and ...` party fallback of lines 204–243. -/
def betweenParties (nlp : Nlp) (fp : PyS) : List MetaParty :=
  match reSearch betweenPat.rx fp with
  | none => []
  | some m =>
      let p1 := pyStrip (mGroup fp m 1)
      let p2 := pyStrip (mGroup fp m 2)
      [p1, p2].flatMap (fun partyText =>
        let orgEnts := ((nlp.ents partyText).filter (fun e =>
          e.label = pys "ORG")).map (fun e => e.text)
        match orgEnts with
        | [] =>
            if decide (pyWordCount partyText > 1) &&
                decide (partyText.length > 5) then
              [.withTy (pyStrip partyText) .org]
            else []
        | _ =>
            orgEnts.filterMap (fun org =>
              if decide (pyWordCount org > 1) &&
                  decide (org.length > 5) then
                -- `re.search` of a `DOC_TYPES` key, a literal, is a
                -- substring test; the matched value is the keyword list
                let ty :=
                  match DOC_TYPES.find? (fun kv => pyIn kv.1 org) with
                  | some kv => MetaTy.keywords kv.2
                  | none => MetaTy.org
                some (.withTy (pyStrip org) ty)
              else none))

/-- The classifier-driven document type of lines 31–59. -/
def codeDocType (classifier : Classifier) (fp : PyS) : PyS :=
  match classifier (pySlice fp 0 1000) with
  | [] => pys "Contract"
  | c :: _ =>
      if c.score > (7 : ℚ) / 10 && !c.label.isEmpty then
        match labelMapping.find? (fun kv => kv.1 = c.label) with
        | some kv => kv.2
        | none => c.label
      else pys "Contract"

/-- `extract_contract_metadata(data, nlp, contractbert_ner,
contractbert_classifier)`.  `none` models the uncaught `IndexError` /
`KeyError` when the first document has an empty page list or a page
without `"text"`. -/
def extract_contract_metadata (datePats : List RxP) (data : List Document)
    (nlp : Nlp) (ner : Ner) (classifier : Classifier) :
    Option CMetadata :=
  match data with
  | [] => some ⟨[], [], pys "Contract", []⟩
  | d :: _ =>
      match d.pages with
      | none => some ⟨[], [], pys "Contract", []⟩
      | some pages => do
          let p0 ← pages.head?
          let fp ← p0.text
          let buckets := collectEnts ner fp
          let effectiveDate := codeEffectiveDate datePats fp buckets.date
          let documentType := codeDocType classifier fp
          let filtered := metaDedup (metaPartyFilter buckets.org)
          let parties0 := (filtered.take 5).map MetaParty.plain
          let title := codeTitle nlp fp
          let parties :=
            if parties0.isEmpty then betweenParties nlp fp else parties0
          some ⟨title, effectiveDate, documentType, parties⟩

/-! ## `src/extract/parties.py` (the party & signatory resolver)

`extract_parties(data, nlp, contractbert_ner)`.  The guard of lines
17–22 returns the empty list when the data list is empty or the first
document lacks a `"pages"` key; a page without `"text"` raises
(`none`). -/

/-- ContractBERT organisations / persons collected from the first pages
(lines 41–54). -/
def bertOrgPerson (ner : Ner) (firstPages : PyS) : List PyS × List PyS :=
  (pyChunks firstPages (min firstPages.length 10000) 450).foldl
    (fun acc chunk =>
      (ner chunk).foldl (fun (acc : List PyS × List PyS) e =>
        let w := pyStrip e.word
        if !w.isEmpty && decide (w.length > 2) then
          if e.group = pys "ORG" then (acc.1 ++ [w], acc.2)
          else if e.group = pys "PERSON" then (acc.1, acc.2 ++ [w])
          else acc
        else acc) acc) ([], [])

/-- The per-organisation screens of lines 59–74: the suffix/word screen
and, independently, the party-indicating-context screen (whose
indicators are checked as literal substrings of the page text, `.*`
included). -/
def partyScreens (firstPages : PyS) (orgs : List PyS) : List PyS :=
  orgs.flatMap (fun org =>
    (if decide (pyWordCount org > 1) &&
        ((reSearch orgSuffixPat.rx org).isSome ||
         (reSearch orgWordPat.rx org).isSome) then [org] else []) ++
    (if [pys "party", pys "between.*" ++ org, org ++ pys ".*agrees",
         org ++ pys ".*hereinafter",
         org ++ pys ".*referred to"].any (fun ind => pyIn ind firstPages)
     then [org] else []))

/-- The `Between ... and ...` scan of lines 76–89. -/
def betweenScan (firstPages : PyS) (bertOrgs : List PyS)
    (potential : List PyS) : List PyS :=
  match reSearch betweenPat.rx firstPages with
  | none => potential
  | some m =>
      let p1 := pyStrip (mGroup firstPages m 1)
      let p2 := pyStrip (mGroup firstPages m 2)
      [p1, p2].foldl (fun pot partyText =>
        bertOrgs.foldl (fun pot org =>
          if pyIn org partyText && !pot.contains org then pot ++ [org]
          else pot) pot) potential

/-- The SpaCy enhancement of lines 91–119 (organisation entities, then
noun chunks, per 10000-character chunk). -/
def spacyScan (nlp : Nlp) (firstPages : PyS) (potential : List PyS) :
    List PyS :=
  (pyChunks firstPages firstPages.length 10000).foldl (fun pot chunk =>
    let pot1 := (nlp.ents chunk).foldl (fun pot e =>
      if e.label = pys "ORG" && decide (e.text.length > 2) then
        let org := pyStrip e.text
        if decide (pyWordCount org > 1) && decide (org.length > 5) &&
            !pot.contains org then pot ++ [org]
        else pot
      else pot) pot
    (nlp.nounChunks chunk).foldl (fun pot nc =>
      if [pys "inc", pys "corp", pys "llc", pys "ltd", pys "company",
          pys "corporation", pys "technologies", pys "systems",
          pys "associates", pys "partners"].any (fun w =>
            pyIn w (pyLower nc)) then
        let org := pyStrip nc
        if decide (pyWordCount org > 1) && decide (org.length > 5) &&
            !pot.contains org then pot ++ [org]
        else pot
      else pot) pot1) potential

/-- Organisation-type classification (lines 145–152): first matching
`ORG_TYPES` pattern, default `"Organization"`. -/
def orgTypeOf (name : PyS) : PyS :=
  match ORG_TYPES.find? (fun pt => (reSearch pt.1.rx name).isSome) with
  | some pt => pt.2
  | none => pys "Organization"

/-- The normalisation of lines 124–126 (whitespace collapse and strip;
both quote replacements in the source replace `"` by `"`). -/
def partyNormalize (name : PyS) : PyS :=
  let n1 := pyStrip (pyCollapseWs name)
  pyReplace (pyReplace n1 (pys "\"") (pys "\"")) (pys "\"") (pys "\"")

/-- The stoplist screen of lines 128–133. -/
def partyStop (name : PyS) : Bool :=
  [pys "article", pys "section", pys "agreement", pys "contract",
   pys "date", pys "herein", pys "hereof", pys "hereto",
   pys "effective date"].any (fun t => pyIn t (pyLower name))

/-- The dedup loop of lines 121–158: a candidate related by substring to
any previously seen name is dropped (the earlier name always wins). -/
def partyDedupStep (st : List PyS × List Party) (rawName : PyS) :
    List PyS × List Party :=
  let name := partyNormalize rawName
  if partyStop name then st
  else
    let isUnique := !st.1.any (fun s => pyIn name s || pyIn s name)
    if isUnique && decide (name.length > 5) then
      (st.1 ++ [name], st.2 ++ [⟨name, orgTypeOf name, []⟩])
    else st

def partyDedup (candidates : List PyS) : List Party :=
  (candidates.foldl partyDedupStep ([], [])).2

/-- Signature-page entities (lines 160–187): ContractBERT entities from
5000 capped chunks, then SpaCy entities not already present (SpaCy texts
are appended unstripped, as in the source). -/
def signatureEntities (nlp : Nlp) (ner : Ner) (lastPages : PyS) :
    List PyS × List PyS :=
  let fromBert :=
    (pyChunks lastPages (min lastPages.length 5000) 450).foldl
      (fun (acc : List PyS × List PyS) chunk =>
        (ner chunk).foldl (fun (acc : List PyS × List PyS) e =>
          let w := pyStrip e.word
          if e.group = pys "ORG" && !w.isEmpty then (acc.1 ++ [w], acc.2)
          else if e.group = pys "PERSON" && !w.isEmpty then
            (acc.1, acc.2 ++ [w])
          else acc) acc) ([], [])
  (pyChunks lastPages lastPages.length 10000).foldl
    (fun (acc : List PyS × List PyS) chunk =>
      (nlp.ents chunk).foldl (fun (acc : List PyS × List PyS) e =>
        if e.label = pys "ORG" && !acc.1.contains e.text then
          (acc.1 ++ [e.text], acc.2)
        else if e.label = pys "PERSON" && !acc.2.contains e.text then
          (acc.1, acc.2 ++ [e.text])
        else acc) acc) fromBert

/-- Attach a signatory to the first party whose name matches the company
by substring in either direction (lines 198–203; note the `break`). -/
def attachFirst (ps : List Party) (company : PyS) (sig : Signatory) :
    List Party :=
  match ps with
  | [] => []
  | p :: rest =>
      if pyIn company p.name || pyIn p.name company then
        { p with signatories := p.signatories ++ [sig] } :: rest
      else p :: attachFirst rest company sig

/-- Phase (a), signature-block pattern matching (lines 189–203).  No
duplicate check is performed on this path. -/
def sigPhaseA (lastPages : PyS) (ps : List Party) : List Party :=
  SIGNATURE_PATTERNS.foldl (fun ps p =>
    (reFindAll p.rx lastPages).foldl (fun ps m =>
      if p.ng ≥ 3 then
        attachFirst ps (pyStrip (mGroup lastPages m 1))
          ⟨pyStrip (mGroup lastPages m 2), pyStrip (mGroup lastPages m 3)⟩
      else ps) ps) ps

/-- The closest organisation by token distance (lines 216–221): strict
minimum, earliest on ties. -/
def closestOrg (orgs : List SpacyEnt) (person : SpacyEnt) :
    Option (SpacyEnt × Nat) :=
  orgs.foldl (fun best o =>
    let d := (person.tokStart - o.tokStart).natAbs
    match best with
    | none => some (o, d)
    | some (_, cur) => if d < cur then some (o, d) else best) none

/-- Phase (b), proximity matching (lines 205–230).  Every matching party
receives the signatory (there is no `break` in this party loop), with a
membership check before appending. -/
def sigPhaseB (nlp : Nlp) (lastPages : PyS) (ps : List Party) :
    List Party :=
  let ents := nlp.ents lastPages
  let orgs := ents.filter (fun e => e.label = pys "ORG")
  let persons := ents.filter (fun e => e.label = pys "PERSON")
  persons.foldl (fun ps person =>
    match closestOrg orgs person with
    | some (o, dist) =>
        if dist < 50 then
          ps.map (fun p =>
            if pyIn o.text p.name || pyIn p.name o.text then
              let sig : Signatory := ⟨person.text, pys "Signatory"⟩
              if p.signatories.contains sig then p
              else { p with signatories := p.signatories ++ [sig] }
            else p)
        else ps
    | none => ps) ps

/-- The positional loop of lines 234–239: the i-th detected person is
appended to the i-th party. -/
def distributePeople (people : List PyS) (i : Nat) :
    List Party → List Party
  | [] => []
  | p :: rest =>
      (if i < people.length then
        { p with signatories := p.signatories ++
            [⟨people.getD i [], pys "Signatory"⟩] }
      else p) :: distributePeople people (i + 1) rest

/-- Phase (c), positional distribution (lines 232–239): only when every
party still has zero signatories. -/
def sigPhaseC (people : List PyS) (ps : List Party) : List Party :=
  if ps.all (fun p => p.signatories.isEmpty) then
    distributePeople people 0 ps
  else ps

/-- `extract_parties(data, nlp, contractbert_ner)`. -/
def extract_parties (data : List Document) (nlp : Nlp) (ner : Ner) :
    Option (List Party) :=
  match data with
  | [] => some []
  | d :: _ =>
      match d.pages with
      | none => some []
      | some pages => do
          let firstTexts ← (pages.take (min 3 pages.length)).mapM
            (fun p => p.text)
          let firstPages := pyJoinNl firstTexts
          let lastPages ←
            if pages.length > 2 then do
              let l ← (pyLastN pages 2).mapM (fun p => p.text)
              pure (pyJoinNl l)
            else pure ([] : PyS)
          let (bertOrgs, _bertPersons) := bertOrgPerson ner firstPages
          let potential :=
            spacyScan nlp firstPages
              (betweenScan firstPages bertOrgs
                (partyScreens firstPages bertOrgs))
          let parties0 := partyDedup potential
          let (_sigOrgs, sigPeople) := signatureEntities nlp ner lastPages
          let parties1 := sigPhaseA lastPages parties0
          let parties2 := sigPhaseB nlp lastPages parties1
          some (sigPhaseC sigPeople parties2)

/-! ## `src/json_to_neo4j.py` — `process_with_fallback`

The JSON file is modelled as `Option Document` (`none` = load/parse
error); the TXT fallback as a three-state source (missing file /
existing but unreadable / readable content).  The metadata slot is a
partial dict, since the source stores `{}` first and later either a TXT
metadata dict or individual hybrid-supplemented keys. -/

/-- The TXT fallback source: `txt_file` falsy or `os.path.exists` false;
existing but `read_txt_file`/`open` raising; or readable content. -/
inductive TxtSource where
  | absent : TxtSource
  | unreadable : TxtSource
  | readable (content : PyS) : TxtSource
deriving Repr, DecidableEq

/-- The `processed_data["metadata"]` dict: starts `{}`, may be replaced
by the TXT metadata dict or have single keys set by the hybrid branch.
(The structured branch would store the JSON metadata dict, but its call
raises before returning — see `process_with_fallback`.) -/
structure MetaDict where
  title : Option PyS
  document_type : Option PyS
  effective_date : Option PyS
  execution_date : Option PyS
  parties : Option (List PyS)
deriving Repr, DecidableEq

def MetaDict.emptyDict : MetaDict := ⟨none, none, none, none, none⟩

def txtMetadataToDict (m : TxtMetadata) : MetaDict :=
  ⟨some m.title, some m.document_type, some m.effective_date,
   some m.execution_date, some m.parties⟩

/-- Python truthiness of `d.get(key)` for a string-valued key. -/
def truthyOpt (o : Option PyS) : Bool :=
  match o with
  | some s => !s.isEmpty
  | none => false

/-- Python truthiness of the metadata dict itself (`{}` is falsy). -/
def MetaDict.isTruthy (m : MetaDict) : Bool :=
  m.title.isSome || m.document_type.isSome || m.effective_date.isSome ||
  m.execution_date.isSome || m.parties.isSome

/-- `processed_data`. -/
structure ProcessedData where
  metadata : MetaDict
  articles : List Article
  parties : List Party
  source : PyS
deriving Repr, DecidableEq

/-- The only exception `process_with_fallback` lets escape (line 513). -/
inductive PErr where
  | runtimeError : PErr
deriving Repr, DecidableEq

/-- `page.get("text")` truthiness. -/
def pageTextTruthy (p : Page) : Bool :=
  match p.text with
  | some t => !t.isEmpty
  | none => false

/-- The `json_success` flag after lines 449–489.  The load and
page-structure validations are as in the source; in the branch where
validation passes, line 466 calls `extract_contract_metadata([json_data])`
and line 474 calls `extract_parties([json_data])`, but the imported
functions take `(data, nlp, contractbert_ner, contractbert_classifier)`
and `(data, nlp, contractbert_ner)`, so the very first call raises
`TypeError`; the `except Exception` of line 484 catches it and sets
`json_success = False` before any extraction result is stored.  Hence
that branch is also `false`, and the hybrid branch (lines 516–549),
transliterated in `process_with_fallback`, is unreachable. -/
def jsonAttemptSucceeds (jsonData : Option Document) : Bool :=
  match jsonData with
  | none => false                     -- error loading the JSON file
  | some j =>
      match j.pages with
      | none => false                 -- `"pages" not in json_data`
      | some pages =>
          if pages.isEmpty then false -- `not json_data.get("pages")`
          else if !(pages.any pageTextTruthy) then false
          else false                  -- TypeError in the extraction try

/-- `process_with_fallback(json_file, txt_file)` (lines 426–550); see
`jsonAttemptSucceeds` for the structured-extraction attempt. -/
def process_with_fallback (jsonData : Option Document) (txt : TxtSource) :
    Except PErr ProcessedData :=
  let pd0 : ProcessedData := ⟨.emptyDict, [], [], pys "json"⟩
  -- lines 449–489: load, validate, attempt extraction
  let jsonSuccess : Bool := jsonAttemptSucceeds jsonData
  let pd1 := pd0
  -- lines 491–513: TXT fallback
  let afterTxt : Except PErr ProcessedData :=
    if !jsonSuccess then
      match txt with
      | .absent => .ok pd1
      | .unreadable =>
          -- `read_txt_file` raised inside the try; the except re-raises
          -- RuntimeError when no articles were extracted
          if pd1.articles.isEmpty then .error .runtimeError else .ok pd1
      | .readable c =>
          .ok { pd1 with
                metadata := txtMetadataToDict
                  (extract_contract_metadata_from_text c),
                articles := extract_articles_from_text c,
                source := pys "txt" }
    else .ok pd1
  -- lines 515–549: hybrid supplementation (requires `json_success`)
  match afterTxt with
  | .error e => .error e
  | .ok pd =>
      if jsonSuccess &&
          (txt = .unreadable || (match txt with
                                 | .readable _ => true
                                 | _ => false)) then
        if pd.articles.isEmpty || !pd.metadata.isTruthy ||
            !truthyOpt pd.metadata.title then
          match txt with
          | .readable c =>
              let pdA :=
                if pd.articles.isEmpty then
                  { pd with articles := extract_articles_from_text c }
                else pd
              let pdB :=
                if !truthyOpt pdA.metadata.document_type ||
                    !truthyOpt pdA.metadata.effective_date ||
                    !truthyOpt pdA.metadata.title then
                  let tm := extract_contract_metadata_from_text c
                  let m0 := pdA.metadata
                  let m1 :=
                    if !truthyOpt m0.document_type then
                      { m0 with document_type := some tm.document_type }
                    else m0
                  let m2 :=
                    if !truthyOpt m1.effective_date then
                      { m1 with effective_date := some tm.effective_date }
                    else m1
                  let m3 :=
                    if !truthyOpt m2.execution_date then
                      { m2 with execution_date := some tm.execution_date }
                    else m2
                  let m4 :=
                    if !truthyOpt m3.title then
                      { m3 with title := some tm.title }
                    else m3
                  { pdA with metadata := m4 }
                else pdA
              .ok { pdB with source := pys "hybrid" }
          | _ =>
              -- `read_txt_file` raised inside the hybrid try: caught,
              -- warning only, state unchanged
              .ok pd
        else .ok pd
      else .ok pd

/-! ## `src/cypher_generator.py`

`generate_neo4j_cypher` embeds most values verbatim into the command
strings; only a Section's `content` is quote-escaped and truncated
(lines 98–102).  `generate_key_provisions_cypher` quote-escapes its
values but never truncates them. -/

/-- The metadata dict handed to `generate_neo4j_cypher` (the function
indexes `title`/`effective_date`/`document_type` directly). -/
structure CyMeta where
  title : PyS
  effective_date : PyS
  document_type : PyS
deriving Repr, DecidableEq

/-- `.replace("'", "\\'")`. -/
def escQuotes (s : PyS) : PyS := pyReplace s (pys "'") (pys "\\'")

/-- Lines 98–102: escape single quotes, then truncate to 497 characters
plus `"..."` when longer than 500. -/
def sectionContentClean (content : PyS) : PyS :=
  let c := escQuotes content
  if c.length > 500 then c.take 497 ++ pys "..." else c

/-- The Contract CREATE command (lines 40–47); every value is embedded
verbatim. -/
def contractCmd (md : CyMeta) (dn di ts : PyS) : PyS :=
  pys "CREATE (c:Contract \x7btitle: '" ++ md.title ++
  pys "', effectiveDate: '" ++ md.effective_date ++
  pys "', documentType: '" ++ md.document_type ++
  pys "', sourceDocument: '" ++ dn ++
  pys "', documentId: '" ++ di ++
  pys "', importTimestamp: '" ++ ts ++ pys "' \x7d)"

/-- Party block (lines 51–78). -/
def partyCmds (dn di : PyS) (idx : Nat) (party : Party) : List PyS :=
  let pid := pys "p" ++ natStr idx
  [pys "CREATE (" ++ pid ++ pys ":Party \x7bname: '" ++ party.name ++
     pys "', type: '" ++ party.ptype ++
     pys "', sourceDocument: '" ++ dn ++
     pys "', documentId: '" ++ di ++ pys "' \x7d)",
   pys "CREATE (" ++ pid ++ pys ")-[:PARTY_TO]->(c)"] ++
  (List.range party.signatories.length).flatMap (fun sigIdx =>
    match party.signatories.get? sigIdx with
    | none => []
    | some sig =>
        let sid := pys "s" ++ natStr idx ++ pys "_" ++ natStr sigIdx
        [pys "CREATE (" ++ sid ++ pys ":Person \x7bname: '" ++ sig.name ++
           pys "', title: '" ++ sig.title ++
           pys "', sourceDocument: '" ++ dn ++
           pys "', documentId: '" ++ di ++ pys "' \x7d)",
         pys "CREATE (" ++ sid ++ pys ")-[:REPRESENTS]->(" ++ pid ++
           pys ")"])

/-- Article/Section block (lines 81–115); only the Section `content`
goes through `sectionContentClean`. -/
def articleCmds (dn di : PyS) (idx : Nat) (article : Article) :
    List PyS :=
  let aid := pys "a" ++ natStr idx
  [pys "CREATE (" ++ aid ++ pys ":Article \x7bnumber: '" ++
     article.number ++ pys "', title: '" ++ article.title ++
     pys "', sourceDocument: '" ++ dn ++
     pys "', documentId: '" ++ di ++ pys "' \x7d)",
   pys "CREATE (c)-[:CONTAINS]->(" ++ aid ++ pys ")"] ++
  (List.range article.sections.length).flatMap (fun secIdx =>
    match article.sections.get? secIdx with
    | none => []
    | some sec =>
        let sid := pys "s" ++ natStr idx ++ pys "_" ++ natStr secIdx
        [pys "CREATE (" ++ sid ++ pys ":Section \x7bnumber: '" ++
           sec.number ++ pys "', title: '" ++ sec.title ++
           pys "', content: '" ++ sectionContentClean sec.content ++
           pys "', sourceDocument: '" ++ dn ++
           pys "', documentId: '" ++ di ++ pys "' \x7d)",
         pys "CREATE (" ++ aid ++ pys ")-[:HAS_SECTION]->(" ++ sid ++
           pys ")"])

/-- `generate_neo4j_cypher(contract_metadata, articles, parties,
document_name, document_id, timestamp)`. -/
def generate_neo4j_cypher (md : CyMeta) (articles : List Article)
    (parties : List Party) (dn di ts : PyS) : List PyS :=
  contractCmd md dn di ts ::
  ((List.range parties.length).flatMap (fun idx =>
      match parties.get? idx with
      | some p => partyCmds dn di idx p
      | none => []) ++
   (List.range articles.length).flatMap (fun idx =>
      match articles.get? idx with
      | some a => articleCmds dn di idx a
      | none => []))

/-- A key provision (`provision.get(key, "")`). -/
structure Provision where
  number : PyS
  title : PyS
  summary : PyS
deriving Repr, DecidableEq

/-- `generate_key_provisions_cypher(key_provisions, document_name,
document_id)` (lines 223–264): quote-escaping, no truncation. -/
def generate_key_provisions_cypher (provisions : List Provision)
    (dn di : PyS) : List PyS :=
  let contractRef := pys "(c:Contract \x7bdocumentId: '" ++ di ++
    pys "'\x7d)"
  (List.range provisions.length).flatMap (fun idx =>
    match provisions.get? idx with
    | none => []
    | some p =>
        let kid := pys "kp" ++ natStr idx
        [pys "CREATE (" ++ kid ++ pys ":KeyProvision \x7bnumber: '" ++
           escQuotes p.number ++ pys "', title: '" ++ escQuotes p.title ++
           pys "', summary: '" ++ escQuotes p.summary ++
           pys "', sourceDocument: '" ++ dn ++
           pys "', documentId: '" ++ di ++ pys "' \x7d)",
         pys "MATCH " ++ contractRef ++
           pys " CREATE (c)-[:HAS_KEY_PROVISION]->(" ++ kid ++ pys ")"])

/-! ## Concrete service doubles for witnesses and counterexamples -/

/-- A SpaCy double returning no sentences, entities or noun chunks. -/
def trivNlp : Nlp := ⟨fun _ => [], fun _ => [], fun _ => []⟩

/-- A ContractBERT NER double returning no entities. -/
def trivNer : Ner := fun _ => []

/-- A classifier double returning no classification. -/
def trivClassifier : Classifier := fun _ => []

/-! ## Claims -/

/-- C10: when the data list is empty or the first document record has no
`"pages"` key, `extract_parties` returns the empty list instead of
raising. -/
theorem c10_parties_guard_returns_empty :
    (∀ (nlp : Nlp) (ner : Ner), extract_parties [] nlp ner = some []) ∧
    (∀ (nlp : Nlp) (ner : Ner) (d : Document) (rest : List Document),
      d.pages = none → extract_parties (d :: rest) nlp ner = some []) := by
  refine ⟨fun nlp ner => rfl, fun nlp ner d rest h => ?_⟩
  rcases d with ⟨pages⟩
  simp only at h
  subst h
  rfl

/-- C10 witness: the guard at a concrete input. -/
theorem c10_witness :
    extract_parties [(⟨none⟩ : Document)] trivNlp trivNer = some [] :=
  c10_parties_guard_returns_empty.2 trivNlp trivNer ⟨none⟩ [] rfl

/-- An article stub carrying only a `numeric_id` (the sort key). -/
def artN (s : String) : Article := ⟨pys s, pys s, [], [], []⟩

instance : IsTotal Article (fun x y => intKey x ≤ intKey y) :=
  ⟨fun _ _ => le_total _ _⟩

instance : IsTrans Article (fun x y => intKey x ≤ intKey y) :=
  ⟨fun _ _ _ h1 h2 => le_trans h1 h2⟩

/-- C5: the candidate article list is sorted by the integer value of
`numeric_id` ascending when every `numeric_id` parses as an integer, and
is left exactly in discovery order otherwise; `["2","1","10"]` comes out
as `["1","2","10"]` and `["I","PREAMBLE"]` keeps its order. -/
theorem c5_article_sort :
    (∀ arts : List Article,
        (∀ a ∈ arts, (pyInt? a.numeric_id).isSome) →
        List.Sorted (fun x y => intKey x ≤ intKey y) (pySortByIntKey arts) ∧
        (pySortByIntKey arts).Perm arts) ∧
    (∀ arts : List Article, (∃ a ∈ arts, pyInt? a.numeric_id = none) →
        pySortByIntKey arts = arts) ∧
    (pySortByIntKey [artN "2", artN "1", artN "10"]).map Article.numeric_id
      = [pys "1", pys "2", pys "10"] ∧
    pySortByIntKey [artN "I", artN "PREAMBLE"] = [artN "I", artN "PREAMBLE"]
    := by
  refine ⟨fun arts h => ?_, fun arts h => ?_, by decide, by decide⟩
  · have hall : arts.all (fun a => (pyInt? a.numeric_id).isSome) = true := by
      simp only [List.all_eq_true]
      exact h
    unfold pySortByIntKey
    rw [if_pos hall]
    exact ⟨List.sorted_insertionSort _ arts, List.perm_insertionSort _ arts⟩
  · obtain ⟨a, ha, hn⟩ := h
    have hall : arts.all (fun a => (pyInt? a.numeric_id).isSome) = false := by
      simp only [List.all_eq_false]
      exact ⟨a, ha, by simp [hn]⟩
    unfold pySortByIntKey
    rw [hall]
    simp

/-- C5 witness: the two branches at the concrete lists of the claim. -/
theorem c5_witness :
    (List.Sorted (fun x y => intKey x ≤ intKey y)
        (pySortByIntKey [artN "2", artN "1", artN "10"]) ∧
      (pySortByIntKey [artN "2", artN "1", artN "10"]).Perm
        [artN "2", artN "1", artN "10"]) ∧
    pySortByIntKey [artN "I", artN "PREAMBLE"] = [artN "I", artN "PREAMBLE"]
    :=
  ⟨c5_article_sort.1 _ (by decide),
   c5_article_sort.2.1 _ ⟨artN "I", by decide⟩⟩

theorem foldl_const {α β : Type} (l : List β) (init : α) :
    l.foldl (fun a _ => a) init = init := by
  induction l generalizing init with
  | nil => rfl
  | cons b t ih => simpa using ih init

theorem flatMap_nilFun {α β : Type} (l : List α) :
    (l.flatMap fun _ => ([] : List β)) = [] := by
  simp

theorem pySortByIntKey_nil : pySortByIntKey [] = [] := rfl

/-- When the annotation services report no entities and no sentences,
one document step of the segmenter adds no article (and can only fail
with an exception). -/
theorem extractArticlesDoc_no_evidence (nlp : Nlp) (ner : Ner)
    (hner : ∀ s, ner s = []) (hsents : ∀ s, nlp.sents s = [])
    (d : Document) :
    extractArticlesDoc nlp ner [] d = none ∨
    extractArticlesDoc nlp ner [] d = some [] := by
  unfold extractArticlesDoc
  rcases d with ⟨pages⟩
  cases pages with
  | none => left; rfl
  | some ps =>
      cases hm : ps.mapM (fun p => p.text) with
      | none =>
          left
          simp only [Option.bind_eq_bind, Option.some_bind, hm,
            Option.none_bind]
      | some texts =>
          right
          simp only [Option.bind_eq_bind, Option.some_bind, hm]
          simp only [hner, hsents, List.filterMap_nil, List.foldl_nil,
            flatMap_nilFun, List.nil_append, List.isEmpty_nil, if_true,
            foldl_const, pySortByIntKey_nil, List.length_nil,
            List.range_zero, List.mapM_nil]
          rfl

/-- C1 amended: the NLP segmenter of `src/extract/articles.py` has no
synthetic-article fallback — whenever the annotation services supply no
evidence it returns the empty list (or fails with an exception for
malformed records); it never fabricates the `("1", "CONTRACT TEXT")`
article. -/
theorem c1_segmenter_can_return_empty :
    ∀ (data : List Document) (nlp : Nlp) (ner : Ner),
      (∀ s, ner s = []) → (∀ s, nlp.sents s = []) →
      extract_articles data nlp ner = none ∨
      extract_articles data nlp ner = some [] := by
  intro data nlp ner hner hsents
  unfold extract_articles
  induction data with
  | nil => right; rfl
  | cons d ds ih =>
      rw [List.foldlM_cons]
      rcases extractArticlesDoc_no_evidence nlp ner hner hsents d with
        h | h
      · left; rw [h]; rfl
      · rw [h]
        exact ih

/-- C1 counterexample: a document whose single page is empty text makes
`extract_articles` return the empty list — the claimed synthetic Article
`("1", "CONTRACT TEXT")` does not exist in this function, so the result
list can be empty. -/
theorem c1_counterexample :
    extract_articles [⟨some [⟨some []⟩]⟩] trivNlp trivNer = some [] ∧
    ([] : List Article).length = 0 := by
  exact ⟨rfl, rfl⟩

/-- C1 witness for the amended theorem at a concrete input. -/
theorem c1_witness :
    extract_articles [⟨some [⟨some (pys "no headers here")⟩]⟩] trivNlp
      trivNer = none ∨
    extract_articles [⟨some [⟨some (pys "no headers here")⟩]⟩] trivNlp
      trivNer = some [] :=
  c1_segmenter_can_return_empty _ trivNlp trivNer (fun _ => rfl)
    (fun _ => rfl)

/-- The structured-extraction attempt never succeeds: the validation
either fails, or the 1-argument calls of lines 466/474 raise
`TypeError` (arity mismatch against the imported 4/3-parameter
functions). -/
theorem jsonAttemptSucceeds_false (j : Option Document) :
    jsonAttemptSucceeds j = false := by
  rcases j with _ | ⟨pages⟩
  · rfl
  · rcases pages with _ | ps
    · rfl
    · show (if ps.isEmpty = true then false
            else if (!ps.any pageTextTruthy) = true then false else false)
          = false
      split_ifs <;> rfl

/-- Closed-form behaviour of `process_with_fallback`: with the
structured attempt always failing, the result is determined by the TXT
source alone. -/
theorem process_with_fallback_eval (j : Option Document) (t : TxtSource) :
    process_with_fallback j t =
      match t with
      | .absent => .ok ⟨MetaDict.emptyDict, [], [], pys "json"⟩
      | .unreadable => .error .runtimeError
      | .readable c =>
          .ok ⟨txtMetadataToDict (extract_contract_metadata_from_text c),
               extract_articles_from_text c, [], pys "txt"⟩ := by
  unfold process_with_fallback
  rw [jsonAttemptSucceeds_false]
  cases t <;> rfl

/-- C7 amended: a hard failure (`RuntimeError`) is raised exactly when
the fallback TXT file exists but reading it raises; when the fallback is
absent the orchestrator returns the initial (empty, partial) result
without failing, and when the fallback is readable the run proceeds on
the text source with tag `"txt"`. -/
theorem c7_failure_modes :
    (∀ j, process_with_fallback j .absent =
        .ok ⟨MetaDict.emptyDict, [], [], pys "json"⟩) ∧
    (∀ j c, ∃ r, process_with_fallback j (.readable c) = .ok r ∧
        r.source = pys "txt") ∧
    (∀ j t, process_with_fallback j t = .error .runtimeError ↔
        t = .unreadable) := by
  refine ⟨fun j => ?_, fun j c => ?_, fun j t => ?_⟩
  · rw [process_with_fallback_eval]
  · exact ⟨_, by rw [process_with_fallback_eval], rfl⟩
  · rw [process_with_fallback_eval]
    cases t <;> simp

/-- C7 counterexample: the structured source fails to load and no
fallback exists, yet the orchestrator returns an (empty, partial)
result instead of surfacing a hard failure. -/
theorem c7_counterexample :
    process_with_fallback none .absent =
      .ok ⟨MetaDict.emptyDict, [], [], pys "json"⟩ ∧
    (⟨MetaDict.emptyDict, [], [], pys "json"⟩ : ProcessedData).articles
      = [] :=
  ⟨rfl, rfl⟩

/-- C7 witness: the readable-fallback clause at a concrete input. -/
theorem c7_witness :
    ∃ r, process_with_fallback none (.readable (pys "Z")) = .ok r ∧
      r.source = pys "txt" :=
  c7_failure_modes.2.1 none (pys "Z")

/-- C3 amended: every successful run's provenance tag is one of
`"json"`, `"txt"`, `"hybrid"` (the source uses `"txt"`, not the spec's
`"text"`); in the scenario of an empty-text structured source with a
readable fallback the tag is `"txt"`. -/
theorem c3_provenance_tags :
    (∀ j t r, process_with_fallback j t = .ok r →
        r.source = pys "json" ∨ r.source = pys "txt" ∨
        r.source = pys "hybrid") ∧
    (∀ j pages c, Document.pages j = some pages → pages ≠ [] →
        (∀ p ∈ pages, pageTextTruthy p = false) →
        ∃ r, process_with_fallback (some j) (.readable c) = .ok r ∧
          r.source = pys "txt") := by
  constructor
  · intro j t r h
    rw [process_with_fallback_eval] at h
    cases t with
    | absent => cases h; left; rfl
    | unreadable => cases h
    | readable c => cases h; right; left; rfl
  · intro j pages c _ _ _
    exact ⟨_, by rw [process_with_fallback_eval], rfl⟩

/-- C3 counterexample: in the claim's scenario the tag is the string
`"txt"`, not `"text"`. -/
theorem c3_counterexample :
    (process_with_fallback (some ⟨some [⟨some []⟩]⟩)
        (.readable (pys "Z"))).toOption.map ProcessedData.source =
      some (pys "txt") ∧ pys "txt" ≠ pys "text" :=
  ⟨rfl, by decide⟩

/-- C3 witness: the scenario clause at a concrete input. -/
theorem c3_witness :
    ∃ r, process_with_fallback (some ⟨some [⟨some []⟩]⟩)
        (.readable (pys "Z")) = .ok r ∧ r.source = pys "txt" :=
  c3_provenance_tags.2 ⟨some [⟨some []⟩]⟩ [⟨some []⟩] (pys "Z") rfl
    (by decide) (by decide)

/-- C6: the hybrid branch is unreachable.  Even for a structurally valid
document with non-empty page text and an available text source — the
situation in which the claim requires field-by-field supplementation
with tag `"hybrid"` — the structured attempt fails (`TypeError` from the
1-argument calls at `json_to_neo4j.py:466/474`) and the whole run falls
back to full TXT extraction with tag `"txt"`. -/
theorem c6_structured_attempt_typeerror :
    jsonAttemptSucceeds
        (some ⟨some [⟨some (pys "Valid contract text")⟩]⟩) = false ∧
    (process_with_fallback
        (some ⟨some [⟨some (pys "Valid contract text")⟩]⟩)
        (.readable (pys "Z"))).toOption.map ProcessedData.source =
      some (pys "txt") :=
  ⟨rfl, rfl⟩

/-- A 508-character title containing a quote character. -/
def c8title : PyS := pys "O'Brien " ++ List.replicate 500 'x'

/-- The Contract command generated for `c8title`. -/
def c8cmd : PyS :=
  contractCmd ⟨c8title, pys "E", pys "D"⟩ (pys "doc") (pys "id") (pys "ts")

/-- C8 counterexample: a metadata title longer than 500 characters and
containing a quote is embedded in the Contract write statement verbatim
— unescaped and untruncated (no backslash-quote and no ellipsis occur in
the command). -/
theorem c8_counterexample :
    (generate_neo4j_cypher ⟨c8title, pys "E", pys "D"⟩ [] [] (pys "doc")
        (pys "id") (pys "ts")).head? = some c8cmd ∧
    c8cmd = pys "CREATE (c:Contract \x7btitle: '" ++ c8title ++
      pys "', effectiveDate: 'E', documentType: 'D', sourceDocument: 'doc', documentId: 'id', importTimestamp: 'ts' \x7d)" ∧
    c8title.length = 508 ∧
    pyIn (pys "'") c8title = true ∧
    pyIn (pys "\\'") c8cmd = false ∧
    pyIn (pys "...") c8cmd = false := by
  refine ⟨rfl, by decide, by decide, by decide, by decide, by decide⟩

/-- C8 amended: only a Section's `content` is quote-escaped and
truncated: the cleaned content never exceeds 500 characters and carries
the trailing ellipsis exactly when the escaped content exceeds 500;
the Contract command embeds the metadata values verbatim. -/
theorem c8_truncation_scope :
    (∀ content : PyS, (sectionContentClean content).length ≤ 500) ∧
    (∀ content : PyS, 500 < (escQuotes content).length →
        sectionContentClean content =
          (escQuotes content).take 497 ++ pys "...") ∧
    (∀ (md : CyMeta) (arts : List Article) (parties : List Party)
        (dn di ts : PyS),
        (generate_neo4j_cypher md arts parties dn di ts).head? =
          some (contractCmd md dn di ts)) := by
  refine ⟨fun content => ?_, fun content h => ?_,
          fun md arts ps dn di ts => rfl⟩
  · unfold sectionContentClean
    by_cases h : (escQuotes content).length > 500
    · rw [if_pos h, List.length_append, List.length_take,
        show (pys "...").length = 3 from rfl]
      omega
    · rw [if_neg h]
      omega
  · unfold sectionContentClean
    rw [if_pos h]

/-- C8 witness: the truncation clauses at a concrete over-long
content. -/
theorem c8_witness :
    (sectionContentClean c8title).length ≤ 500 ∧
    sectionContentClean c8title =
      (escQuotes c8title).take 497 ++ pys "..." :=
  ⟨c8_truncation_scope.1 c8title,
   c8_truncation_scope.2.1 c8title (by decide)⟩

/-- A three-page document: party evidence on the first page, the same
signature block twice on the last page. -/
def sigDoc : List Document :=
  [⟨some [⟨some (pys "z")⟩, ⟨some []⟩,
          ⟨some (pys "By: Acme Systems Inc. Name: John Smith Title: CEO; By: Acme Systems Inc. Name: John Smith Title: CEO;")⟩]⟩]

/-- A NER double reporting one organisation. -/
def nerSys : Ner := fun _ => [⟨pys "ORG", pys "Acme Systems Inc."⟩]

/-- C9 counterexample: the signature-block pattern path performs no
duplicate check — a signature block appearing twice attaches the same
`(name, title)` pair twice to the same Party. -/
theorem c9_counterexample :
    extract_parties sigDoc trivNlp nerSys =
      some [⟨pys "Acme Systems Inc.", pys "Corporation",
             [⟨pys "John Smith", pys "CEO"⟩,
              ⟨pys "John Smith", pys "CEO"⟩]⟩] ∧
    ¬ ([⟨pys "John Smith", pys "CEO"⟩,
        ⟨pys "John Smith", pys "CEO"⟩] : List Signatory).Nodup := by
  exact ⟨by decide, by decide⟩

theorem nodup_append_single {α : Type} (l : List α) (a : α)
    (h : l.Nodup) (ha : a ∉ l) : (l ++ [a]).Nodup := by
  simp [List.nodup_append, h, ha]

theorem not_mem_of_contains_false {α : Type} [DecidableEq α]
    (l : List α) (a : α) (h : l.contains a = false) : a ∉ l := by
  intro hmem
  have h2 : l.elem a = true := List.elem_iff.mpr hmem
  rw [show l.contains a = l.elem a from rfl, h2] at h
  cases h

/-- One proximity step (a single person) keeps every party's signatory
list duplicate-free. -/
theorem sigPhaseB_step_nodup (ps : List Party) (o : SpacyEnt)
    (person : SpacyEnt) (h : ∀ p ∈ ps, p.signatories.Nodup) :
    ∀ q ∈ ps.map (fun p =>
      if pyIn o.text p.name || pyIn p.name o.text then
        let sig : Signatory := ⟨person.text, pys "Signatory"⟩
        if p.signatories.contains sig then p
        else { p with signatories := p.signatories ++ [sig] }
      else p), q.signatories.Nodup := by
  intro q hq
  rw [List.mem_map] at hq
  obtain ⟨p, hp, rfl⟩ := hq
  by_cases h1 : pyIn o.text p.name || pyIn p.name o.text
  · simp only [h1, if_true]
    by_cases h2 : p.signatories.contains ⟨person.text, pys "Signatory"⟩
    · simp only [h2, if_true]
      exact h p hp
    · simp only [h2, if_false]
      refine nodup_append_single _ _ (h p hp) ?_
      exact not_mem_of_contains_false _ _ (by simpa using h2)
  · simp only [h1, if_false]
    exact h p hp

/-- The person fold of phase (b) keeps every party's signatory list
duplicate-free. -/
theorem proximity_foldl_nodup (orgs : List SpacyEnt) :
    ∀ (persons : List SpacyEnt) (ps : List Party),
    (∀ p ∈ ps, p.signatories.Nodup) →
    ∀ q ∈ persons.foldl (fun ps person =>
      match closestOrg orgs person with
      | some (o, dist) =>
          if dist < 50 then
            ps.map (fun p =>
              if pyIn o.text p.name || pyIn p.name o.text then
                let sig : Signatory := ⟨person.text, pys "Signatory"⟩
                if p.signatories.contains sig then p
                else { p with signatories := p.signatories ++ [sig] }
              else p)
          else ps
      | none => ps) ps, q.signatories.Nodup := by
  intro persons
  induction persons with
  | nil => intro ps h; exact h
  | cons person rest ih =>
      intro ps h
      rw [List.foldl_cons]
      apply ih
      cases hc : closestOrg orgs person with
      | none => simpa [hc] using h
      | some od =>
          rcases od with ⟨o, dist⟩
          by_cases hd : dist < 50
          · simp only [hc, hd, if_true]
            exact sigPhaseB_step_nodup ps o person h
          · simpa [hc, hd] using h

/-- C9 amended: the proximity path (b) never duplicates a `(name,
title)` pair on a party, and the positional path (c) runs only when
every party has zero signatories and then keeps the lists
duplicate-free; the signature-block pattern path (a), by contrast, has
no such check (see the counterexample). -/
theorem c9_signatory_dedup_scope :
    (∀ (nlp : Nlp) (lastPages : PyS) (ps : List Party),
        (∀ p ∈ ps, p.signatories.Nodup) →
        ∀ q ∈ sigPhaseB nlp lastPages ps, q.signatories.Nodup) ∧
    (∀ (people : List PyS) (ps : List Party),
        (∃ p ∈ ps, p.signatories ≠ []) → sigPhaseC people ps = ps) ∧
    (∀ (people : List PyS) (ps : List Party),
        (∀ p ∈ ps, p.signatories.Nodup) →
        ∀ q ∈ sigPhaseC people ps, q.signatories.Nodup) := by
  refine ⟨fun nlp lastPages ps h => ?_, fun people ps h => ?_,
          fun people ps h => ?_⟩
  · exact proximity_foldl_nodup _ _ ps h
  · unfold sigPhaseC
    obtain ⟨p, hp, hne⟩ := h
    rw [if_neg]
    simp only [List.all_eq_true, not_forall]
    exact ⟨p, hp, by simpa [List.isEmpty_iff] using hne⟩
  · unfold sigPhaseC
    by_cases hall : ps.all (fun p => p.signatories.isEmpty) = true
    · rw [if_pos hall]
      rw [List.all_eq_true] at hall
      clear h
      -- in this branch every signatory list is empty; distribution adds
      -- at most one entry per party
      suffices hgen : ∀ (i : Nat) (l : List Party),
          (∀ p ∈ l, p.signatories.isEmpty) →
          ∀ q ∈ distributePeople people i l, q.signatories.Nodup by
        exact hgen 0 ps hall
      intro i l
      induction l generalizing i with
      | nil => intro _ q hq; cases hq
      | cons p rest ih =>
          intro hl q hq
          have hps : p.signatories = [] := by
            simpa [List.isEmpty_iff] using hl p (by simp)
          rw [distributePeople] at hq
          rcases List.mem_cons.mp hq with hq | hq
          · by_cases hi : i < people.length
            · simp only [hi, if_true] at hq
              subst hq
              simp [hps]
            · simp only [hi, if_false] at hq
              subst hq
              simp [hps]
          · exact ih (i + 1) (fun x hx => hl x (by simp [hx])) q hq
    · rw [if_neg hall]
      exact fun q hq => h q hq

/-- C9 witness: the amended clauses at concrete inputs. -/
theorem c9_witness :
    (∀ q ∈ sigPhaseB trivNlp (pys "Z")
        [⟨pys "Acme Systems Inc.", pys "Corporation",
          [⟨pys "John Smith", pys "CEO"⟩]⟩], q.signatories.Nodup) ∧
    sigPhaseC [pys "Jane Roe"]
        [⟨pys "Acme Systems Inc.", pys "Corporation",
          [⟨pys "John Smith", pys "CEO"⟩]⟩] =
      [⟨pys "Acme Systems Inc.", pys "Corporation",
        [⟨pys "John Smith", pys "CEO"⟩]⟩] :=
  ⟨c9_signatory_dedup_scope.1 trivNlp (pys "Z") _ (by decide),
   c9_signatory_dedup_scope.2.1 [pys "Jane Roe"] _
     ⟨⟨pys "Acme Systems Inc.", pys "Corporation",
       [⟨pys "John Smith", pys "CEO"⟩]⟩, by simp, by decide⟩⟩

/-! ### C2: party-name deduplication -/

/-- The names of a party list. -/
def namesOf (ps : List Party) : List PyS := ps.map Party.name

/-- Neither name is a substring of the other. -/
def nameRel (a b : PyS) : Prop := pyIn a b = false ∧ pyIn b a = false

theorem attachFirst_names (ps : List Party) (c : PyS) (s : Signatory) :
    namesOf (attachFirst ps c s) = namesOf ps := by
  induction ps with
  | nil => rfl
  | cons p rest ih =>
      unfold attachFirst
      by_cases h : pyIn c p.name || pyIn p.name c
      · simp [namesOf, h]
      · simp only [h, if_false, namesOf, List.map_cons]
        simpa [namesOf] using ih

theorem foldl_preserves_names {β : Type} (f : List Party → β → List Party)
    (hf : ∀ ps b, namesOf (f ps b) = namesOf ps) :
    ∀ (l : List β) (ps : List Party), namesOf (l.foldl f ps) = namesOf ps
  | [], _ => rfl
  | b :: t, ps => by
      rw [List.foldl_cons, foldl_preserves_names f hf t, hf]

theorem sigPhaseA_names (lastPages : PyS) (ps : List Party) :
    namesOf (sigPhaseA lastPages ps) = namesOf ps := by
  unfold sigPhaseA
  apply foldl_preserves_names
  intro ps p
  apply foldl_preserves_names
  intro ps m
  by_cases h : p.ng ≥ 3
  · simp [h, attachFirst_names]
  · simp [h]

theorem map_preserves_names (ps : List Party) (g : Party → Party)
    (hg : ∀ p, (g p).name = p.name) : namesOf (ps.map g) = namesOf ps := by
  unfold namesOf
  rw [List.map_map]
  exact List.map_congr_left (fun p _ => hg p)

theorem proximity_foldl_names (orgs : List SpacyEnt) :
    ∀ (persons : List SpacyEnt) (ps : List Party),
      namesOf (persons.foldl (fun ps person =>
        match closestOrg orgs person with
        | some (o, dist) =>
            if dist < 50 then
              ps.map (fun p =>
                if pyIn o.text p.name || pyIn p.name o.text then
                  let sig : Signatory := ⟨person.text, pys "Signatory"⟩
                  if p.signatories.contains sig then p
                  else { p with signatories := p.signatories ++ [sig] }
                else p)
            else ps
        | none => ps) ps) = namesOf ps := by
  intro persons
  induction persons with
  | nil => intro ps; rfl
  | cons person rest ih =>
      intro ps
      rw [List.foldl_cons, ih]
      cases hc : closestOrg orgs person with
      | none => rfl
      | some od =>
          rcases od with ⟨o, dist⟩
          by_cases hd : dist < 50
          · simp only [hd, if_true]
            apply map_preserves_names
            intro p
            by_cases h1 : pyIn o.text p.name || pyIn p.name o.text
            · simp only [h1, if_true]
              split <;> rfl
            · simp [h1]
          · simp [hd]

theorem sigPhaseB_names (nlp : Nlp) (lastPages : PyS) (ps : List Party) :
    namesOf (sigPhaseB nlp lastPages ps) = namesOf ps := by
  unfold sigPhaseB
  exact proximity_foldl_names _ _ ps

theorem distributePeople_names (people : List PyS) (i : Nat)
    (ps : List Party) :
    namesOf (distributePeople people i ps) = namesOf ps := by
  induction ps generalizing i with
  | nil => rfl
  | cons p rest ih =>
      unfold distributePeople namesOf
      by_cases h : i < people.length
      · simp only [h, if_true, List.map_cons]
        exact congrArg (p.name :: ·) (ih (i + 1))
      · simp only [h, if_false, List.map_cons]
        exact congrArg (p.name :: ·) (ih (i + 1))

theorem sigPhaseC_names (people : List PyS) (ps : List Party) :
    namesOf (sigPhaseC people ps) = namesOf ps := by
  unfold sigPhaseC
  by_cases hall : ps.all (fun p => p.signatories.isEmpty) = true <;>
    simp [hall, distributePeople_names]

theorem partyDedupStep_inv (st : List PyS × List Party) (x : PyS)
    (h1 : namesOf st.2 = st.1) (h2 : st.1.Pairwise nameRel) :
    namesOf (partyDedupStep st x).2 = (partyDedupStep st x).1 ∧
    (partyDedupStep st x).1.Pairwise nameRel := by
  unfold partyDedupStep
  dsimp only
  by_cases hstop : partyStop (partyNormalize x) = true
  · rw [if_pos hstop]; exact ⟨h1, h2⟩
  · rw [if_neg hstop]
    by_cases hcond : ((!st.1.any fun s =>
          pyIn (partyNormalize x) s || pyIn s (partyNormalize x)) &&
        decide ((partyNormalize x).length > 5)) = true
    · rw [if_pos hcond]
      constructor
      · show namesOf (st.2 ++
            [⟨partyNormalize x, orgTypeOf (partyNormalize x), []⟩]) =
          st.1 ++ [partyNormalize x]
        unfold namesOf at h1 ⊢
        rw [List.map_append, h1]
        rfl
      · show (st.1 ++ [partyNormalize x]).Pairwise nameRel
        rw [List.pairwise_append]
        refine ⟨h2, List.pairwise_singleton _ _, ?_⟩
        intro a ha b hb
        rw [List.mem_singleton] at hb
        subst hb
        have hl := hcond
        rw [Bool.and_eq_true] at hl
        have hany : (st.1.any fun s =>
            pyIn (partyNormalize x) s || pyIn s (partyNormalize x))
              = false := by
          simpa using hl.1
        rw [List.any_eq_false] at hany
        have hsp : pyIn (partyNormalize x) a = false ∧
            pyIn a (partyNormalize x) = false := by
          simpa using hany a ha
        exact ⟨hsp.2, hsp.1⟩
    · rw [if_neg hcond]; exact ⟨h1, h2⟩

theorem partyDedup_foldl_inv (cands : List PyS) :
    ∀ (st : List PyS × List Party), namesOf st.2 = st.1 →
      st.1.Pairwise nameRel →
      namesOf (cands.foldl partyDedupStep st).2 =
        (cands.foldl partyDedupStep st).1 ∧
      (cands.foldl partyDedupStep st).1.Pairwise nameRel := by
  induction cands with
  | nil => intro st h1 h2; exact ⟨h1, h2⟩
  | cons x t ih =>
      intro st h1 h2
      rw [List.foldl_cons]
      obtain ⟨h1x, h2x⟩ := partyDedupStep_inv st x h1 h2
      exact ih _ h1x h2x

/-- The Party-Resolver dedup output: no accepted name is a substring of
another. -/
theorem partyDedup_pairwise (cands : List PyS) :
    (partyDedup cands).Pairwise (fun p q => nameRel p.name q.name) := by
  unfold partyDedup
  obtain ⟨h1, h2⟩ := partyDedup_foldl_inv cands ([], []) rfl
    (List.Pairwise.nil)
  rw [← h1] at h2
  unfold namesOf at h2
  exact (List.pairwise_map).mp h2

/-- The signatory phases change no party name, so the dedup invariant
survives to the final party list. -/
theorem pipeline_pairwise (nlp : Nlp) (lastPages : PyS)
    (people : List PyS) (cands : List PyS) :
    (sigPhaseC people (sigPhaseB nlp lastPages
        (sigPhaseA lastPages (partyDedup cands)))).Pairwise
      (fun p q => pyIn p.name q.name = false ∧
        pyIn q.name p.name = false) := by
  have hnames : namesOf (sigPhaseC people (sigPhaseB nlp lastPages
      (sigPhaseA lastPages (partyDedup cands)))) =
      namesOf (partyDedup cands) := by
    rw [sigPhaseC_names, sigPhaseB_names, sigPhaseA_names]
  have hp2 : (namesOf (partyDedup cands)).Pairwise nameRel :=
    (List.pairwise_map).mpr (partyDedup_pairwise cands)
  rw [← hnames] at hp2
  exact (List.pairwise_map).mp hp2

/-- C2 amended: the Party Resolver's dedup keeps the first-seen name
(dropping any later substring-related candidate, even a longer one) and
its final list satisfies the no-substring invariant; the Metadata
Resolver's filtering replaces the first substring-related accepted entry
by a strictly longer candidate — so for exactly two related candidates
the longer wins there — but it does not re-check the remaining entries,
so its invariant can fail with three or more candidates. -/
theorem c2_dedup_behaviour :
    (∀ (data : List Document) (nlp : Nlp) (ner : Ner) (res : List Party),
        extract_parties data nlp ner = some res →
        res.Pairwise (fun p q => pyIn p.name q.name = false ∧
          pyIn q.name p.name = false)) ∧
    (∀ a b : PyS, metaStop a = false → metaStop b = false →
        pyIn a b = true → a.length < b.length →
        metaDedup [a, b] = [b]) := by
  constructor
  · intro data nlp ner res h
    cases data with
    | nil =>
        unfold extract_parties at h
        cases h
        exact List.Pairwise.nil
    | cons d rest =>
        rcases d with ⟨pgs⟩
        cases pgs with
        | none =>
            unfold extract_parties at h
            cases h
            exact List.Pairwise.nil
        | some pages =>
            unfold extract_parties at h
            simp only [Option.bind_eq_bind] at h
            obtain ⟨ft, _hft, h⟩ := Option.bind_eq_some.mp h
            by_cases hlen : pages.length > 2
            · rw [if_pos hlen] at h
              obtain ⟨l, _hl, h⟩ := Option.bind_eq_some.mp h
              simp only [Option.pure_def, Option.some_bind] at h
              injection h with h
              rw [← h]
              exact pipeline_pairwise nlp _ _ _
            · rw [if_neg hlen] at h
              simp only [Option.pure_def, Option.some_bind] at h
              injection h with h
              rw [← h]
              exact pipeline_pairwise nlp _ _ _
  · intro a b hsa hsb hin hlen
    have s1 : metaDedupStep [] a = [a] := by
      unfold metaDedupStep
      rw [if_neg (by simp [hsa])]
      rfl
    have hfa : (fun ex => pyIn b ex || pyIn ex b) a = true := by
      simp [hin]
    have s2 : metaDedupStep [a] b = [b] := by
      unfold metaDedupStep
      rw [if_neg (by simp [hsb])]
      have hfind : List.find? (fun ex => pyIn b ex || pyIn ex b) [a] =
          some a := by
        simp only [List.find?]
        rw [show (pyIn b a || pyIn a b) = true by simp [hin]]
      rw [hfind]
      show (if List.length b > List.length a then [a].erase a ++ [b]
            else [a]) = [b]
      rw [if_pos hlen]
      simp
    unfold metaDedup
    rw [List.foldl_cons, List.foldl_cons, List.foldl_nil, s1, s2]

/-- Documents and NER doubles for the C2 counterexample. -/
def zDoc : List Document := [⟨some [⟨some (pys "z")⟩]⟩]

def nerAcme : Ner := fun _ =>
  [⟨pys "ORG", pys "Acme Inc."⟩, ⟨pys "ORG", pys "Acme Inc. Holdings"⟩]

def nerThree : Ner := fun _ =>
  [⟨pys "ORG", pys "Alpha Systems Inc."⟩,
   ⟨pys "ORG", pys "Beta Systems Inc."⟩,
   ⟨pys "ORG", pys "Alpha Systems Inc. and Beta Systems Inc."⟩]

def nerTwo : Ner := fun _ =>
  [⟨pys "ORG", pys "Acme Inc."⟩, ⟨pys "ORG", pys "Beta LLC"⟩]

/-- C2 counterexample: (i) for the claim's own scenario the Party
Resolver keeps only the shorter, first-seen "Acme Inc." and drops
"Acme Inc. Holdings"; (ii) the Metadata Resolver's filtering accepts
"Beta Systems Inc." alongside a longer name containing it, breaking the
no-substring invariant. -/
theorem c2_counterexample :
    extract_parties zDoc trivNlp nerAcme =
      some [⟨pys "Acme Inc.", pys "Corporation", []⟩] ∧
    (extract_contract_metadata [] zDoc trivNlp nerThree
        trivClassifier).map CMetadata.parties =
      some [.plain (pys "Beta Systems Inc."),
            .plain (pys "Alpha Systems Inc. and Beta Systems Inc.")] ∧
    pyIn (pys "Beta Systems Inc.")
      (pys "Alpha Systems Inc. and Beta Systems Inc.") = true := by
  exact ⟨by decide, by decide, by decide⟩

/-- C2 witness: the amended clauses at concrete inputs. -/
theorem c2_witness :
    List.Pairwise (fun p q : Party => pyIn p.name q.name = false ∧
        pyIn q.name p.name = false)
      [⟨pys "Acme Inc.", pys "Corporation", []⟩,
       ⟨pys "Beta LLC", pys "Limited Liability Company", []⟩] ∧
    metaDedup [pys "Acme Inc.", pys "Acme Inc. Holdings"] =
      [pys "Acme Inc. Holdings"] :=
  ⟨c2_dedup_behaviour.1 zDoc trivNlp nerTwo _ (by decide),
   c2_dedup_behaviour.2 (pys "Acme Inc.") (pys "Acme Inc. Holdings")
     (by decide) (by decide) (by decide) (by decide)⟩

/-! ### C4: the effective-date cascade

Spec-side formalisation of §4.3's four strategies, to be proved equal to
the code path `codeEffectiveDate`. -/

/-- Position of a candidate date (lowercased) in the normalised text. -/
def datePos (norm : PyS) (d : PyS) : Int := pyFind norm (pyLower d)

/-- Spec strategy (a): the direct `"Effective Date: <date>"` literal; it
succeeds when it yields a (stripped) non-empty date. -/
def effStratA (fp : PyS) : Option PyS :=
  (reSearch effDateLiteralPat.rx fp).bind (fun m =>
    let d := pyStrip (mGroup fp m 1)
    if d.isEmpty then none else some d)

/-- Spec strategy (b): for each context phrase in order, select among
the candidate dates the one whose position in the lowercased
punctuation-normalised text is strictly after the phrase's position and
within 100 characters, minimising the distance (first candidate on
ties); the first context phrase that is present and has such a date
wins. -/
def effStratB (datePats : List RxP) (fp : PyS) (bertDates : List PyS) :
    Option PyS :=
  let dates := allPotentialDates datePats fp bertDates
  let norm := normText fp
  DATE_CONTEXTS.findSome? (fun ctx =>
    let cpos := pyFind norm ctx
    if cpos ≥ 0 then
      (dates.filter (fun d => decide (datePos norm d > cpos) &&
          decide (datePos norm d - cpos < 100))).argmin
        (fun d => datePos norm d - cpos)
    else none)

/-- Spec strategy (c): the generic `Month DD, YYYY` pattern. -/
def effStratC (fp : PyS) : Option PyS :=
  (reSearch monthDayYearPat.rx fp).map (fun m => mGroup fp m 1)

/-- Spec strategy (d): the first annotation-service date. -/
def effStratD (bertDates : List PyS) : Option PyS := bertDates.head?

/-- The spec's cascade: the strategies are tried in the fixed order
(a), (b), (c), (d); the first one that yields a date wins and no later
strategy is consulted. -/
def specEffectiveDate (datePats : List RxP) (fp : PyS)
    (bertDates : List PyS) : PyS :=
  ((effStratA fp).orElse (fun _ =>
    (effStratB datePats fp bertDates).orElse (fun _ =>
      (effStratC fp).orElse (fun _ => effStratD bertDates)))).getD []

theorem foldl_filter_eq {α β : Type} (q : α → Bool) (g : β → α → β) :
    ∀ (l : List α) (init : β),
      (l.filter q).foldl g init =
        l.foldl (fun acc x => if q x then g acc x else acc) init := by
  intro l
  induction l with
  | nil => intro init; rfl
  | cons x t ih =>
      intro init
      by_cases h : q x
      · rw [List.filter_cons_of_pos h, List.foldl_cons, List.foldl_cons,
          ih]
        simp [h]
      · rw [List.filter_cons_of_neg (by simpa using h), List.foldl_cons,
          ih]
        simp [h]

/-- The fold of `ctxClosest` agrees with `argmin` over the filtered
qualifying dates, and the stored distance always belongs to the stored
date. -/
theorem ctxClosest_fold_invariant (norm : PyS) (cpos : Int) :
    ∀ (dates : List PyS) (st : Option (PyS × Int)),
      (∀ d dist, st = some (d, dist) → dist = datePos norm d - cpos) →
      (dates.foldl (fun best date =>
          let dpos := pyFind norm (pyLower date)
          if dpos > cpos && dpos - cpos < 100 then
            match best with
            | none => some (date, dpos - cpos)
            | some (_, cur) =>
                if dpos - cpos < cur then some (date, dpos - cpos)
                else best
          else best) st).map Prod.fst =
        dates.foldl (fun acc x =>
          if decide (datePos norm x > cpos) &&
              decide (datePos norm x - cpos < 100) then
            List.argAux (fun b c => (fun d => datePos norm d - cpos) b <
              (fun d => datePos norm d - cpos) c) acc x
          else acc) (st.map Prod.fst) ∧
      (∀ d dist, (dates.foldl (fun best date =>
          let dpos := pyFind norm (pyLower date)
          if dpos > cpos && dpos - cpos < 100 then
            match best with
            | none => some (date, dpos - cpos)
            | some (_, cur) =>
                if dpos - cpos < cur then some (date, dpos - cpos)
                else best
          else best) st) = some (d, dist) →
        dist = datePos norm d - cpos) := by
  intro dates
  induction dates with
  | nil => intro st hst; exact ⟨rfl, hst⟩
  | cons x t ih =>
      intro st hst
      rw [List.foldl_cons, List.foldl_cons]
      by_cases hq : (decide (datePos norm x > cpos) &&
          decide (datePos norm x - cpos < 100)) = true
      · have hq' : (decide (pyFind norm (pyLower x) > cpos) &&
            decide (pyFind norm (pyLower x) - cpos < 100)) = true := hq
        simp only [hq, hq', if_true]
        cases st with
        | none =>
            refine ih (some (x, pyFind norm (pyLower x) - cpos)) ?_
            intro d dist hd
            cases hd
            rfl
        | some p =>
            rcases p with ⟨c, cur⟩
            have hcur : cur = datePos norm c - cpos := hst c cur rfl
            by_cases hlt :
                pyFind norm (pyLower x) - cpos < cur
            · simp only [hlt, if_true]
              have harg : List.argAux (fun b c =>
                  (fun d => datePos norm d - cpos) b <
                    (fun d => datePos norm d - cpos) c) (some c) x
                  = some x := by
                unfold List.argAux
                simp only [Option.casesOn]
                rw [if_pos]
                rw [← hcur]
                exact hlt
              rw [show (some (c, cur)).map Prod.fst = some c from rfl,
                harg]
              refine ih (some (x, pyFind norm (pyLower x) - cpos)) ?_
              intro d dist hd
              cases hd
              rfl
            · simp only [hlt, if_false]
              have harg : List.argAux (fun b c =>
                  (fun d => datePos norm d - cpos) b <
                    (fun d => datePos norm d - cpos) c) (some c) x
                  = some c := by
                unfold List.argAux
                simp only [Option.casesOn]
                rw [if_neg]
                rw [← hcur]
                exact hlt
              rw [show (some (c, cur)).map Prod.fst = some c from rfl,
                harg]
              exact ih (some (c, cur)) hst
      · have hq' : (decide (pyFind norm (pyLower x) > cpos) &&
            decide (pyFind norm (pyLower x) - cpos < 100)) = false := by
          simpa using hq
        simp only [hq', Bool.false_eq_true, if_false,
          show (decide (datePos norm x > cpos) &&
            decide (datePos norm x - cpos < 100)) = false by
              simpa using hq]
        exact ih st hst

/-- `ctxClosest` picks exactly the `argmin` (by distance, first on
ties) of the qualifying dates. -/
theorem ctxClosest_eq_argmin (norm : PyS) (cpos : Int) (dates : List PyS) :
    (ctxClosest norm cpos dates).map Prod.fst =
      (dates.filter (fun d => decide (datePos norm d > cpos) &&
          decide (datePos norm d - cpos < 100))).argmin
        (fun d => datePos norm d - cpos) := by
  unfold ctxClosest List.argmin
  rw [foldl_filter_eq]
  exact (ctxClosest_fold_invariant norm cpos dates none
    (by intro d dist h; cases h)).1

/-- `ctxLoop` is `findSome?` over the contexts. -/
theorem ctxLoop_eq_findSome (norm : PyS) (dates : List PyS) :
    ∀ ctxs : List PyS, ctxLoop norm dates ctxs =
      ctxs.findSome? (fun ctx =>
        if pyFind norm ctx ≥ 0 then
          (ctxClosest norm (pyFind norm ctx) dates).map Prod.fst
        else none) := by
  intro ctxs
  induction ctxs with
  | nil => rfl
  | cons c rest ih =>
      rw [List.findSome?_cons]
      show (if pyFind norm c ≥ 0 then
          match ctxClosest norm (pyFind norm c) dates with
          | some (d, _) => some d
          | none => ctxLoop norm dates rest
        else ctxLoop norm dates rest) = _
      by_cases hc : pyFind norm c ≥ 0
      · rw [if_pos hc, if_pos hc]
        cases hcl : ctxClosest norm (pyFind norm c) dates with
        | none => simpa using ih
        | some p => rcases p with ⟨d, dist⟩; rfl
      · rw [if_neg hc, if_neg hc]
        exact ih

/-- The code's effective-date computation equals the spec's four-way
cascade. -/
theorem codeEffectiveDate_eq_spec (datePats : List RxP) (fp : PyS)
    (bertDates : List PyS) :
    codeEffectiveDate datePats fp bertDates =
      specEffectiveDate datePats fp bertDates := by
  have hB : effStratB datePats fp bertDates =
      ctxLoop (normText fp) (allPotentialDates datePats fp bertDates)
        DATE_CONTEXTS := by
    rw [ctxLoop_eq_findSome]
    unfold effStratB
    refine congrArg (List.findSome? · DATE_CONTEXTS) (funext fun ctx => ?_)
    by_cases hc : pyFind (normText fp) ctx ≥ 0
    · rw [if_pos hc, if_pos hc, ctxClosest_eq_argmin]
    · rw [if_neg hc, if_neg hc]
  unfold codeEffectiveDate specEffectiveDate effStratA
  cases hA : reSearch effDateLiteralPat.rx fp with
  | none =>
      simp only [Option.none_bind, Option.none_orElse]
      rw [hB]
      cases hcl : ctxLoop (normText fp)
          (allPotentialDates datePats fp bertDates) DATE_CONTEXTS with
      | some d => rfl
      | none =>
          simp only [Option.none_orElse]
          unfold effStratC effStratD
          cases hm : reSearch monthDayYearPat.rx fp with
          | some m => rfl
          | none =>
              simp only [Option.map_none, Option.none_orElse]
              cases bertDates with
              | nil => rfl
              | cons d ds => rfl
  | some m =>
      simp only [Option.some_bind]
      by_cases hd : (pyStrip (mGroup fp m 1)).isEmpty
      · rw [if_pos hd]
        have hnot : (!(pyStrip (mGroup fp m 1)).isEmpty) = false := by
          simp [hd]
        rw [hnot]
        simp only [Bool.false_eq_true, if_false, Option.none_orElse]
        rw [hB]
        cases hcl : ctxLoop (normText fp)
            (allPotentialDates datePats fp bertDates) DATE_CONTEXTS with
        | some d => rfl
        | none =>
            simp only [Option.none_orElse]
            unfold effStratC effStratD
            cases hm : reSearch monthDayYearPat.rx fp with
            | some m2 => rfl
            | none =>
                simp only [Option.map_none, Option.none_orElse]
                cases bertDates with
                | nil => rfl
                | cons d ds => rfl
      · rw [if_neg hd]
        have hnot : (!(pyStrip (mGroup fp m 1)).isEmpty) = true := by
          simp [hd]
        rw [hnot]
        rfl

/-- C4: for every first-page text, the effective-date resolution of
`extract_contract_metadata` tries its strategies in the fixed order
(a) direct `"Effective Date: <date>"` literal, (b) proximity matching
that, for each context phrase in order, selects among candidate dates
the one whose position in the lowercased punctuation-normalised text is
strictly after the phrase's position and within 100 characters,
minimising the distance, (c) a generic `"Month DD, YYYY"` pattern,
(d) the first annotation-service date; once any strategy yields a date,
no later strategy is run and the field keeps that value
(`specEffectiveDate` is the first-success `orElse` chain over the four
strategies). -/
theorem c4_effective_date_cascade (datePats : List RxP) (d : Document)
    (rest : List Document) (p0 : Page) (prest : List Page) (fp : PyS)
    (nlp : Nlp) (ner : Ner) (classifier : Classifier)
    (h1 : d.pages = some (p0 :: prest)) (h2 : p0.text = some fp) :
    ∃ md, extract_contract_metadata datePats (d :: rest) nlp ner
        classifier = some md ∧
      md.effective_date =
        specEffectiveDate datePats fp (collectEnts ner fp).date := by
  have heval : extract_contract_metadata datePats (d :: rest) nlp ner
      classifier = some
        ⟨codeTitle nlp fp,
         codeEffectiveDate datePats fp (collectEnts ner fp).date,
         codeDocType classifier fp,
         (if (((metaDedup (metaPartyFilter
               (collectEnts ner fp).org)).take 5).map
             MetaParty.plain).isEmpty then
            betweenParties nlp fp
          else ((metaDedup (metaPartyFilter
            (collectEnts ner fp).org)).take 5).map MetaParty.plain)⟩ := by
    obtain ⟨pgs⟩ := d
    have h1' : pgs = some (p0 :: prest) := h1
    subst h1'
    obtain ⟨t0⟩ := p0
    have h2' : t0 = some fp := h2
    subst h2'
    rfl
  exact ⟨_, heval, codeEffectiveDate_eq_spec datePats fp
    (collectEnts ner fp).date⟩

theorem c4_witness :
    (⟨some [⟨some (pys "Effective Date: April 29, 2025")⟩]⟩ :
        Document).pages =
      some [(⟨some (pys "Effective Date: April 29, 2025")⟩ : Page)] ∧
    (⟨some (pys "Effective Date: April 29, 2025")⟩ : Page).text =
      some (pys "Effective Date: April 29, 2025") ∧
    ∃ md, extract_contract_metadata []
        [⟨some [⟨some (pys "Effective Date: April 29, 2025")⟩]⟩]
        trivNlp trivNer trivClassifier = some md ∧
      md.effective_date = specEffectiveDate []
        (pys "Effective Date: April 29, 2025")
        (collectEnts trivNer (pys "Effective Date: April 29, 2025")).date :=
  ⟨rfl, rfl,
    c4_effective_date_cascade []
      ⟨some [⟨some (pys "Effective Date: April 29, 2025")⟩]⟩ []
      ⟨some (pys "Effective Date: April 29, 2025")⟩ []
      (pys "Effective Date: April 29, 2025") trivNlp trivNer
      trivClassifier rfl rfl⟩
